import Mathlib

/-!
Verification of the multi-source signal aggregation engine (trading_bot_v2).

Shallow embedding of the Vote contract, the technical indicator tools
(RSI, triple moving average, Bollinger bands, price/volume divergence,
historical similarity), the fundamental P/E tool, the Reddit sentiment
aggregator, and the orchestrator of src/collector.py.

Modelling conventions:
* Python floats are modelled as exact numbers: rationals where the source
  only uses field arithmetic and comparisons, reals where the source uses
  sqrt, exp or log.  NaN (pandas missing values) is modelled as `none` in
  `Option Rat`.
* External I/O (yfinance price fetch, Reddit fetch, the LLM classification
  call, sqlite persistence) is out of scope per the spec; those values are
  inputs of the embedded functions, exactly at the seams the spec draws.
* f-string reasons whose text a claim inspects are modelled verbatim;
  reasons that merely interpolate formatted floats keep their fixed text
  and drop only the float formatting, which no claim inspects.
-/

namespace TradingBot

/-- The common Vote record every tool returns (interfaces.py: a dict with
keys pillar, tool, signal, vote, confidence, reason, data).  The audit
payload `data` differs per tool and is modelled separately where a claim
needs it.  The confidence type `R` is `Rat` for tools whose float
arithmetic is plain field arithmetic and `Real` for tools using sqrt, exp
or log. -/
structure Vote (R : Type) where
  pillar : String
  tool : String
  signal : String
  vote : Int
  confidence : R
  reason : String
deriving DecidableEq

/-- Mean of a rational list, `sum / len` (pandas mean; empty guarded by
callers as in the source). -/
def qMean (l : List ℚ) : ℚ := l.sum / l.length

/-- Last element of a rational list; callers guard non-emptiness as the
source guards `iloc[-1]`. -/
def qLast (l : List ℚ) : ℚ := l.getLast?.getD 0

/-! ### RSI (src/pillars/technicals/rsi.py) -/

/-- Tail of `pd.Series.diff`: consecutive differences, previous value
threaded through. -/
def diffAux (prev : ℚ) : List ℚ → List (Option ℚ)
  | [] => []
  | x :: xs => some (x - prev) :: diffAux x xs

/-- `s.diff()`: first entry NaN, then consecutive differences. -/
def seriesDiff : List ℚ → List (Option ℚ)
  | [] => []
  | x :: xs => none :: diffAux x xs

/-- `delta.clip(lower=0)` on a series with NaNs. -/
def clipGain (l : List (Option ℚ)) : List (Option ℚ) :=
  l.map (Option.map (fun d => max d 0))

/-- `-delta.clip(upper=0)` on a series with NaNs. -/
def clipLoss (l : List (Option ℚ)) : List (Option ℚ) :=
  l.map (Option.map (fun d => -(min d 0)))

/-- One pass of `ewm(alpha=1/period, adjust=False, min_periods=period).mean()`:
`cnt` counts non-NaN observations seen, `st` is the running ewm state
(seeded by the first non-NaN value), output is NaN until `min_periods`
observations have arrived. -/
def ewmGo (alpha : ℚ) (p : ℕ) : ℕ → Option ℚ → List (Option ℚ) → List (Option ℚ)
  | _, _, [] => []
  | cnt, st, none :: xs => none :: ewmGo alpha p cnt st xs
  | cnt, st, some v :: xs =>
    let st2 : ℚ := match st with
      | none => v
      | some s => (1 - alpha) * s + alpha * v
    (if p ≤ cnt + 1 then some st2 else none) :: ewmGo alpha p (cnt + 1) (some st2) xs

/-- `ewm(alpha, adjust=False, min_periods=p).mean()`. -/
def ewmMean (alpha : ℚ) (p : ℕ) (xs : List (Option ℚ)) : List (Option ℚ) :=
  ewmGo alpha p 0 none xs

/-- `avg_loss.replace(0, np.nan)`. -/
def replaceZeroWithNan (l : List (Option ℚ)) : List (Option ℚ) :=
  l.map (fun o => if o = some 0 then none else o)

/-- Elementwise series division with NaN propagation (`avg_gain / avg_loss`). -/
def seriesDiv (a b : List (Option ℚ)) : List (Option ℚ) :=
  List.zipWith (fun g l => g.bind (fun x => l.map (fun y => x / y))) a b

/-- `_rsi_from_close` (rsi.py lines 11-21): Wilder-smoothed gains/losses,
`rs = avg_gain / avg_loss.replace(0, nan)`, `100 - 100/(1+rs)`.
(The source computes `alpha = 1/period`; for `period = 0` the source raises
ZeroDivisionError and produces no Vote, so theorems are only about
`period >= 1`.) -/
def rsiFromClose (close : List ℚ) (period : ℕ) : List (Option ℚ) :=
  let delta := seriesDiff close
  let gain := clipGain delta
  let loss := clipLoss delta
  let avgGain := ewmMean (1 / period) period gain
  let avgLoss := ewmMean (1 / period) period loss
  let rs := seriesDiv avgGain (replaceZeroWithNan avgLoss)
  rs.map (Option.map (fun r => 100 - 100 / (1 + r)))

/-- The HOLD Vote the RSI tool returns when the RSI series is empty after
`dropna()`. -/
def rsiInsufficientVote : Vote ℚ :=
  ⟨"technicals", "RSI", "HOLD", 0, 1/2, "insufficient data"⟩

/-- `RSIIndicator.compute` (rsi.py lines 28-63).  `dropna()` is
`filterMap id`; the last RSI value drives the three-way decision. -/
def rsiCompute (close : List ℚ) (period : ℕ) (oversold overbought : ℚ) : Vote ℚ :=
  let vals := (rsiFromClose close period).filterMap id
  match vals.getLast? with
  | none => rsiInsufficientVote
  | some val =>
    if val ≤ oversold then
      ⟨"technicals", "RSI", "BUY", 1, 3/5, "RSI at or below oversold"⟩
    else if overbought ≤ val then
      ⟨"technicals", "RSI", "SELL", -1, 3/5, "RSI at or above overbought"⟩
    else
      ⟨"technicals", "RSI", "HOLD", 0, 1/2, "RSI between thresholds"⟩

/-! ### Bollinger bands (src/pillars/technicals/bollinger.py) -/

/-- Mean of a real list, `sum / len`. -/
noncomputable def rMean (l : List ℝ) : ℝ := l.sum / l.length

/-- Last element of a real list (`iloc[-1]`, guarded by callers). -/
noncomputable def rLast (l : List ℝ) : ℝ := l.getLast?.getD 0

/-- The last `w` elements of the series: the window that
`rolling(w).iloc[-1]` statistics are computed over. -/
def lastWin (s : List ℝ) (w : ℕ) : List ℝ := s.drop (s.length - w)

/-- Sample variance with `ddof=1` (pandas rolling `std`).  For a
one-element window pandas yields NaN while this yields 0; theorems
therefore assume a window of at least 2. -/
noncomputable def sampleVar (l : List ℝ) : ℝ :=
  ((l.map (fun x => (x - rMean l) ^ 2)).sum) / ((l.length : ℝ) - 1)

/-- pandas rolling standard deviation of a window. -/
noncomputable def sampleStd (l : List ℝ) : ℝ := Real.sqrt (sampleVar l)

/-- `ma.iloc[-1]` of `s.rolling(window).mean()`. -/
noncomputable def bollMa (s : List ℝ) (w : ℕ) : ℝ := rMean (lastWin s w)

/-- `sd.iloc[-1]` of `s.rolling(window).std()`. -/
noncomputable def bollSd (s : List ℝ) (w : ℕ) : ℝ := sampleStd (lastWin s w)

/-- Upper band `ma + k * sd`. -/
noncomputable def bollUpper (s : List ℝ) (w : ℕ) (k : ℝ) : ℝ := bollMa s w + k * bollSd s w

/-- Lower band `ma - k * sd`. -/
noncomputable def bollLower (s : List ℝ) (w : ℕ) (k : ℝ) : ℝ := bollMa s w - k * bollSd s w

/-- The insufficient-data HOLD Vote of the Bollinger tool. -/
noncomputable def bollInsufficientVote : Vote ℝ :=
  ⟨"technicals", "BOLLINGER", "HOLD", 0, 1/2, "insufficient data"⟩

/-- The confidence step of `BollingerIndicator.compute` (bollinger.py
lines 52-55): `0.5` for a HOLD vote, else
`min(0.9, 0.5 + 0.4 * min(2, max(0, outside) / max(1e-9, u - l)))`. -/
noncomputable def bollConf (vt : Int) (outside u l : ℝ) : ℝ :=
  if vt = 0 then 1/2
  else min (9/10) (1/2 + (2/5) * min 2 (max 0 outside / max (1/1000000000) (u - l)))

/-- The reason step of `BollingerIndicator.compute` (lines 57-61); float
interpolation elided. -/
def bollReason (vt : Int) : String :=
  if vt = 0 then "Price inside bands"
  else if vt < 0 then "Price above upper band" else "Price below lower band"

open scoped Classical in
/-- `BollingerIndicator.compute` (bollinger.py lines 12-70): the tie-break
branch pair, then the shared confidence/reason steps. -/
noncomputable def bollCompute (s : List ℝ) (w : ℕ) (k : ℝ) (equalIsInside : Bool) : Vote ℝ :=
  if s.length < w then bollInsufficientVote
  else
    let price := rLast s
    let u := bollUpper s w k
    let l := bollLower s w k
    let dec : String × Int × ℝ :=
      if equalIsInside then
        if u < price then ("SELL", -1, price - u)
        else if price < l then ("BUY", 1, l - price)
        else ("HOLD", 0, 0)
      else
        if u ≤ price then ("SELL", -1, max 0 (price - u))
        else if price ≤ l then ("BUY", 1, max 0 (l - price))
        else ("HOLD", 0, 0)
    ⟨"technicals", "BOLLINGER", dec.1, dec.2.1, bollConf dec.2.1 dec.2.2 u l, bollReason dec.2.1⟩

/-! ### Triple moving average (src/pillars/technicals/triple_sma.py) -/

/-- `_sma(s, w).dropna()`: the list of all full-window rolling means,
one per position from `w-1` on.  pandas raises for `window = 0`, so the
`w = 0` case (modelled as the empty list) is outside every theorem. -/
def smaList (s : List ℚ) (w : ℕ) : List ℚ :=
  if 1 ≤ w ∧ w ≤ s.length then
    (List.range (s.length + 1 - w)).map (fun i => qMean ((s.drop i).take w))
  else []

/-- `np.polyfit(x, y, 1)` slope over `x = 0..n-1`:
`sum((x - xbar) * y) / sum((x - xbar)^2)`. -/
def slopeLS (ys : List ℚ) : ℚ :=
  let n := ys.length
  let xbar : ℚ := ((n : ℚ) - 1) / 2
  let num := (ys.enum.map (fun p => ((p.1 : ℚ) - xbar) * p.2)).sum
  let den := ((List.range n).map (fun i => ((i : ℚ) - xbar) ^ 2)).sum
  num / den

/-- `_slope` (triple_sma.py lines 17-28): 0.0 when fewer than
`max(3, last_n)` valid points, else the regression slope of the last
`last_n` points. -/
def slopeOf (vals : List ℚ) (lastN : ℕ) : ℚ :=
  if vals.length < max 3 lastN then 0
  else slopeLS (vals.drop (vals.length - lastN))

/-- `x > y > z` over the three latest SMA values, false when any is
missing (`have_vals and (v1 > v2 > v3)` in the source). -/
def stackedAbove (x y z : Option ℚ) : Bool :=
  match x, y, z with
  | some a, some b, some c => decide (b < a) && decide (c < b)
  | _, _, _ => false

/-- `s1 >= tol and s2 >= tol and s3 >= tol` (the bullish slope gate). -/
def slopesAtLeast (tol s1 s2 s3 : ℚ) : Bool :=
  decide (tol ≤ s1) && decide (tol ≤ s2) && decide (tol ≤ s3)

/-- `s1 <= -tol and s2 <= -tol and s3 <= -tol` (the bearish slope gate). -/
def slopesBelow (tol s1 s2 s3 : ℚ) : Bool :=
  decide (s1 ≤ -tol) && decide (s2 ≤ -tol) && decide (s3 ≤ -tol)

/-- `TripleSMAIndicator.compute` (triple_sma.py lines 70-171).  The
`equal_is_below` flag only shapes the above/below audit payload, never the
decision, and is not modelled.  The bearish stack `v1 < v2 < v3` is
`stackedAbove v3 v2 v1`. -/
def tripleSMACompute (cs : List ℚ) (w1 w2 w3 : ℕ) (slopeWindow : ℕ) (slopeTol : ℚ) : Vote ℚ :=
  if cs = [] then ⟨"technicals", "TRIPLE_SMA", "HOLD", 0, 1/2, "no price data"⟩
  else
    let v1 := (smaList cs w1).getLast?
    let v2 := (smaList cs w2).getLast?
    let v3 := (smaList cs w3).getLast?
    let s1 := slopeOf (smaList cs w1) slopeWindow
    let s2 := slopeOf (smaList cs w2) slopeWindow
    let s3 := slopeOf (smaList cs w3) slopeWindow
    if stackedAbove v1 v2 v3 && slopesAtLeast slopeTol s1 s2 s3 then
      ⟨"technicals", "TRIPLE_SMA", "BUY", 1, 3/5, "Bullish stack with non-negative slopes"⟩
    else if stackedAbove v3 v2 v1 && slopesBelow slopeTol s1 s2 s3 then
      ⟨"technicals", "TRIPLE_SMA", "SELL", -1, 3/5, "Bearish stack with non-positive slopes"⟩
    else
      ⟨"technicals", "TRIPLE_SMA", "HOLD", 0, 1/2, "Mixed stack or conflicting slopes"⟩

/-! ### Price/volume divergence (src/pillars/technicals/price_volume.py) -/

/-- `PriceVolumeIndicator.compute` (price_volume.py lines 18-66).  The
volume series is taken already index-aligned with the close series (the
source reindexes, forward-fills and zero-fills it first; that is I/O
plumbing over pandas indexes).  `prior_c.tail(window).iloc[-1]` is the
close at position `len - window - 1`.  For `window = 0` the source raises
on `iloc[-1]` of an empty frame; theorems stay at positive windows. -/
def pvCompute (c v : List ℚ) (w : ℕ) (volRatioMin : ℚ) : Vote ℚ :=
  if c.length < 2 * w then
    ⟨"technicals", "PRICE_VOLUME", "HOLD", 0, 1/2, "insufficient data"⟩
  else
    let recentLast := qLast c
    let priorLast := (c.get? (c.length - w - 1)).getD 0
    let recentV := qMean (v.drop (v.length - w))
    let priorV := qMean ((v.drop (v.length - 2 * w)).take w)
    let priceChange := if priorLast ≠ 0 then recentLast / priorLast - 1 else 0
    let volRatio := if priorV ≠ 0 then recentV / priorV else 0
    if 0 < priceChange ∧ volRatioMin ≤ volRatio then
      ⟨"technicals", "PRICE_VOLUME", "BUY", 1, 11/20, "Price up with volume up"⟩
    else if priceChange < 0 ∧ volRatioMin ≤ volRatio then
      ⟨"technicals", "PRICE_VOLUME", "SELL", -1, 11/20, "Price down with volume up"⟩
    else
      ⟨"technicals", "PRICE_VOLUME", "HOLD", 0, 1/2, "No price and volume divergence signal"⟩

/-! ### P/E ratio (src/pillars/fundamentals/pe_ratio.py) -/

/-- The Vote for an unavailable ratio (pe_ratio.py lines 94-108). -/
def peUnavailableVote : Vote ℚ :=
  ⟨"fundamentals", "PE_RATIO", "HOLD", 0, 1/2, "P/E unavailable from yfinance"⟩

/-- The confidence selection of `PERatioTool.compute` (pe_ratio.py line
129): the scaled confidence for a decision, 0.5 for HOLD. -/
def peConfSel (vt : Int) (cf : ℚ) : ℚ := if vt ≠ 0 then cf else 1/2

/-- `PERatioTool.compute` (pe_ratio.py lines 84-137) given the externally
fetched ratio (`_get_pe` is a yfinance wrapper, out of scope per the spec:
the ratio value or None is the input). -/
def peCompute (pe : Option ℚ) (buyBelow holdUpper : ℚ) : Vote ℚ :=
  match pe with
  | none => peUnavailableVote
  | some p =>
    let sv : String × Int :=
      if p < buyBelow then ("BUY", 1)
      else if holdUpper < p then ("SELL", -1)
      else ("HOLD", 0)
    let nearest := min |p - buyBelow| |p - holdUpper|
    let conf := min (9/10) (1/2 + min (2/5) (nearest / max 1 ((holdUpper - buyBelow) / 2) * (2/5)))
    ⟨"fundamentals", "PE_RATIO", sv.1, sv.2, peConfSel sv.2 conf, "P/E thresholds decision"⟩

/-! ### Historical similarity (src/pillars/technicals/hist_similarity.py) -/

/-- numpy population standard deviation (`ndarray.std()`, ddof=0). -/
noncomputable def popStd (l : List ℝ) : ℝ :=
  Real.sqrt ((l.map (fun x => (x - rMean l) ^ 2)).sum / l.length)

/-- z-normalisation of a window with the `std or 1.0` guard of the source
(a zero standard deviation is replaced by 1.0 before dividing). -/
noncomputable def znorm (xs : List ℝ) : List ℝ :=
  let mu := rMean xs
  let sd := popStd xs
  let sd1 := if sd = 0 then 1 else sd
  xs.map (fun x => (x - mu) / sd1)

/-- `np.corrcoef(a, b)[0, 1]`: Pearson correlation of two equal-length
vectors. -/
noncomputable def pearson (a b : List ℝ) : ℝ :=
  let ma := rMean a
  let mb := rMean b
  (List.zipWith (fun x y => (x - ma) * (y - mb)) a b).sum /
    (Real.sqrt ((a.map (fun x => (x - ma) ^ 2)).sum) *
      Real.sqrt ((b.map (fun y => (y - mb) ^ 2)).sum))

/-- `s.iloc[i]` for an in-range position. -/
noncomputable def elemAt (s : List ℝ) (i : ℕ) : ℝ := (s.get? i).getD 0

/-- One row of the `scores` list of `HistorySimilarityIndicator.compute`:
the as-of timestamp `s.index[i + window - 1]` (timestamps are the ascending
positions of the deduplicated series, per the PriceSeries contract), the
correlation with the recent window, and the realised forward return. -/
structure HSScore where
  t : ℕ
  corr : ℝ
  fwd : ℝ

/-- The `scores` list (hist_similarity.py lines 41-48), one entry per
`i in range(0, len(s) - window - horizon)`. -/
noncomputable def hsScores (s : List ℝ) (w h : ℕ) : List HSScore :=
  (List.range (s.length - w - h)).map (fun i =>
    { t := i + w - 1
      corr := pearson (znorm (lastWin s w)) (znorm ((s.drop i).take w))
      fwd := elemAt s (i + w + h - 1) / elemAt s (i + w - 1) - 1 })

/-- The total order the ranking realises: correlation descending, and on
exactly equal correlations earliest timestamp first.  The source sorts with
`scores.sort(key=lambda x: x[1], reverse=True)`; Python sorting is stable
and the scores are generated in strictly ascending timestamp order, so the
stable descending sort coincides with sorting by this total order. -/
def hsLe (a b : HSScore) : Prop :=
  b.corr < a.corr ∨ (a.corr = b.corr ∧ a.t ≤ b.t)

/-- Strict version of `hsLe`: what it means for the ranking to break
correlation ties by the earliest timestamp. -/
def hsStrict (a b : HSScore) : Prop :=
  b.corr < a.corr ∨ (a.corr = b.corr ∧ a.t < b.t)

open scoped Classical in
/-- The ranking step of `HistorySimilarityIndicator.compute` (line 58). -/
noncomputable def hsSort (l : List HSScore) : List HSScore :=
  List.insertionSort hsLe l

/-- The short-history HOLD Vote (hist_similarity.py lines 29-35). -/
noncomputable def histSimInsufficientVote : Vote ℝ :=
  ⟨"technicals", "HIST_SIM", "HOLD", 0, 1/2, "insufficient history"⟩

/-- Result of the historical-similarity tool: the Vote plus its audit
payload, `none` modelling the empty dict `{}` of the degraded branches and
`some (mean_forward_return, top_matches)` the populated payload. -/
structure HSOut where
  v : Vote ℝ
  data : Option (ℝ × List HSScore)

open scoped Classical in
/-- `HistorySimilarityIndicator.compute` (hist_similarity.py lines 20-81). -/
noncomputable def histSimCompute (s : List ℝ) (w h tk : ℕ) : HSOut :=
  if s.length < w + h + 5 then ⟨histSimInsufficientVote, none⟩
  else
    let scores := hsScores s w h
    if scores = [] then
      ⟨⟨"technicals", "HIST_SIM", "HOLD", 0, 1/2, "no comparable windows"⟩, none⟩
    else
      let top := (hsSort scores).take tk
      let meanRet := rMean (top.map (·.fwd))
      let dec : String × Int × ℝ :=
        if 0 < meanRet then ("BUY", 1, 11/20)
        else if meanRet < 0 then ("SELL", -1, 11/20)
        else ("HOLD", 0, 1/2)
      ⟨⟨"technicals", "HIST_SIM", dec.1, dec.2.1, dec.2.2,
        "Avg fwd return among top matches"⟩, some (meanRet, top)⟩

/-! ### Reddit sentiment (src/pillars/sentiment/reddit_sentiment.py and
src/pillars/sentiment/utils.py) -/

/-- `exp_decay_weight` (sentiment/utils.py lines 4-9). -/
noncomputable def expDecayWeight (ageDays halfLifeDays : ℝ) : ℝ :=
  if halfLifeDays ≤ 0 then 1
  else Real.exp (-(Real.log 2 / halfLifeDays) * max 0 ageDays)

/-- `_score_weight` (reddit_sentiment.py lines 19-22):
`clamp(1 + log1p(max(0, score)) / 3, min_w, max_w)`. -/
noncomputable def scoreWeight (score : ℤ) (minW maxW : ℝ) : ℝ :=
  min maxW (max minW (1 + Real.log (1 + ((max 0 score : ℤ) : ℝ)) / 3))

/-- `_age_days` (reddit_sentiment.py lines 25-27) with the wall clock
`now` passed explicitly. -/
noncomputable def ageDays (now ts : ℝ) : ℝ := max 0 ((now - ts) / 86400)

/-- A fetched Reddit comment as the aggregation step consumes it (id,
popularity score, creation timestamp; body/permalink are audit-only). -/
structure RComment where
  id : String
  score : ℤ
  createdUtc : ℝ

/-- One classification row `{"id", "sentiment", "confidence"}` as returned
by `_classify_batch` (the LLM call is an external collaborator; its output
list is an input here). -/
structure SRow where
  id : String
  sentiment : String
  conf : ℝ

/-- `enum_map.get(sentiment, 0)`: Bullish=1, Bearish=-1, anything else 0. -/
def sentimentValue (s : String) : ℤ :=
  if s = "Bullish" then 1 else if s = "Bearish" then -1 else 0

/-- `next((x for x in results if x["id"] == c.id), Neutral default)`. -/
noncomputable def lookupRow (results : List SRow) (cid : String) : SRow :=
  (results.find? (fun x => x.id == cid)).getD ⟨cid, "Neutral", 1/2⟩

/-- The combined age-and-popularity weight of one comment
(reddit_sentiment.py lines 158-160). -/
noncomputable def commentWeight (now halfLife minW maxW : ℝ) (c : RComment) : ℝ :=
  expDecayWeight (ageDays now c.createdUtc) halfLife * scoreWeight c.score minW maxW

/-- The signed value of one comment after classification lookup. -/
noncomputable def commentValue (results : List SRow) (c : RComment) : ℤ :=
  sentimentValue (lookupRow results c.id).sentiment

/-- `weighted_sum` accumulated over the classified batch. -/
noncomputable def sentWeightedSum (results : List SRow) (now halfLife minW maxW : ℝ)
    (cs : List RComment) : ℝ :=
  (cs.map (fun c => ((commentValue results c : ℤ) : ℝ) * commentWeight now halfLife minW maxW c)).sum

/-- `w_denom` accumulated over the classified batch. -/
noncomputable def sentWDenom (now halfLife minW maxW : ℝ) (cs : List RComment) : ℝ :=
  (cs.map (commentWeight now halfLife minW maxW)).sum

/-- Result of the sentiment tool: the Vote plus the audit payload fields a
claim needs.  `wDenom = none` models the empty-batch payload, whose dict
carries no `w_denom` key; the computed branch always carries `some`. -/
structure SentOut where
  v : Vote ℝ
  bull : ℕ
  bear : ℕ
  neu : ℕ
  weightedSum : ℝ
  wDenom : Option ℝ

/-- The empty-batch Vote (reddit_sentiment.py lines 133-139). -/
noncomputable def noMentionsVote (ticker : String) : Vote ℝ :=
  ⟨"sentiment", "REDDIT_SENTIMENT", "HOLD", 0, 1/2, "No recent mentions for " ++ ticker⟩

open scoped Classical in
/-- `RedditBatchSentimentTool.compute` (reddit_sentiment.py lines 109-239)
from the fetch seam on: `allComments` is what
`fetch_recent_comments_for_ticker` returned (newest first, already
deduplicated and age-filtered), `results` what `_classify_batch` returned.
The best-effort sqlite logging block changes no Vote and is not modelled.
The reason of the computed branch interpolates the counts; its formatted
weighted-sum suffix is elided (no claim inspects it). -/
noncomputable def sentCompute (ticker : String) (allComments : List RComment)
    (results : List SRow) (classifyTopN : ℕ) (halfLife minW maxW now : ℝ) : SentOut :=
  if allComments = [] then ⟨noMentionsVote ticker, 0, 0, 0, 0, none⟩
  else
    let cs := allComments.take classifyTopN
    let ws := sentWeightedSum results now halfLife minW maxW cs
    let wd := sentWDenom now halfLife minW maxW cs
    let nb := cs.countP (fun c => 0 < commentValue results c)
    let nr := cs.countP (fun c => commentValue results c < 0)
    let nn := cs.countP (fun c => commentValue results c = 0)
    let sv : String × Int :=
      if |ws| < 1/1000000000 ∨ wd = 0 then ("HOLD", 0)
      else if 0 < ws then ("BUY", 1)
      else ("SELL", -1)
    let conf : ℝ := if wd = 0 then 1/2 else min (9/10) (1/2 + (2/5) * |ws| / wd)
    ⟨⟨"sentiment", "REDDIT_SENTIMENT", sv.1, sv.2, conf,
      "Reddit sentiment: bull=" ++ toString nb ++ " bear=" ++ toString nr ++
        " neu=" ++ toString nn⟩,
      nb, nr, nn, ws, some wd⟩

/-! ### Orchestrator (src/collector.py, run_once lines 40-122) -/

/-- The degraded fundamentals Vote built by the collector when
`PERatioTool().compute` raises (collector.py lines 70-76); the argument is
the exception type name. -/
noncomputable def peFailVote (ename : String) : Vote ℝ :=
  ⟨"fundamentals", "PE_RATIO", "HOLD", 0, 1/2, "PE lookup failed: " ++ ename⟩

/-- The degraded sentiment Vote built by the collector when the sentiment
tool raises (collector.py lines 99-105). -/
noncomputable def sentFailVote (ename : String) : Vote ℝ :=
  ⟨"sentiment", "REDDIT_SENTIMENT", "HOLD", 0, 1/2,
    "sentiment skipped due to error: " ++ ename⟩

/-- The explicit disabled-sentiment Vote (collector.py lines 106-112). -/
noncomputable def sentDisabledVote : Vote ℝ :=
  ⟨"sentiment", "REDDIT_SENTIMENT", "HOLD", 0, 1/2, "sentiment disabled via config/env"⟩

/-- `run_once` from the first tool call on (collector.py lines 55-115).
Each argument stands for the evaluation of one tool call: `Except.ok v`
when the call returns the Vote `v`, `Except.error e` when it raises an
exception named `e`.  The five technical calls (lines 56-64) are plain
statements, so the embedding propagates their error; the fundamentals call
(lines 68-76) and the enabled sentiment call (lines 83-105) sit in
`try/except` blocks that substitute a degraded HOLD Vote.  The price
fetch, its empty-frame abort and the sqlite writes around this block are
external I/O. -/
noncomputable def runOnce (rsiR smaR bollR pvR histR peR sentR : Except String (Vote ℝ))
    (sentEnabled : Bool) : Except String (List (Vote ℝ)) := do
  let v1 ← rsiR
  let v2 ← smaR
  let v3 ← bollR
  let v4 ← pvR
  let v5 ← histR
  let v6 := match peR with
    | .ok v => v
    | .error e => peFailVote e
  let v7 :=
    if sentEnabled then
      match sentR with
      | .ok v => v
      | .error e => sentFailVote e
    else sentDisabledVote
  return [v1, v2, v3, v4, v5, v6, v7]

/-! ### String containment (used to state claims about reasons) -/

/-- Boolean test that `p` starts `l`. -/
def startsL : List Char → List Char → Bool
  | [], _ => true
  | _ :: _, [] => false
  | a :: as, b :: bs => a == b && startsL as bs

/-- Boolean test that `n` occurs contiguously inside `h`. -/
def infxL (n : List Char) : List Char → Bool
  | [] => startsL n []
  | h :: t => startsL n (h :: t) || infxL n t

/-- Boolean substring test on strings. -/
def strContains (needle hay : String) : Bool := infxL needle.toList hay.toList

/-- The Vote contract invariant of spec section 3: vote in `{-1,0,1}`,
confidence in `[0,1]`, and sign consistency between `vote` and `signal`. -/
def VoteOK {R : Type} [LinearOrderedField R] (v : Vote R) : Prop :=
  (v.vote = 1 ∨ v.vote = 0 ∨ v.vote = -1) ∧
  0 ≤ v.confidence ∧ v.confidence ≤ 1 ∧
  (v.vote = 1 ↔ v.signal = "BUY") ∧
  (v.vote = -1 ↔ v.signal = "SELL") ∧
  (v.vote = 0 ↔ v.signal = "HOLD")

/-- Confidence lies in the band `[0.5, 0.9]` (the implicit tightening of
claim C10). -/
def ConfBand {R : Type} [LinearOrderedField R] (v : Vote R) : Prop :=
  1/2 ≤ v.confidence ∧ v.confidence ≤ 9/10

/-! ### Helper lemmas -/

theorem startsL_self : ∀ l : List Char, startsL l l = true := by
  intro l
  induction l with
  | nil => rfl
  | cons a as ih => simp [startsL, ih]

theorem infxL_self : ∀ l : List Char, infxL l l = true := by
  intro l
  cases l with
  | nil => rfl
  | cons a as => simp [infxL, startsL_self]

theorem startsL_append_right (n h t : List Char) (hs : startsL n h = true) :
    startsL n (h ++ t) = true := by
  induction n generalizing h with
  | nil => rfl
  | cons a as ih =>
    cases h with
    | nil => exact absurd hs (by simp [startsL])
    | cons b bs =>
      simp only [startsL, Bool.and_eq_true] at hs ⊢
      exact ⟨hs.1, ih bs hs.2⟩

theorem infxL_nil_left : ∀ t : List Char, infxL [] t = true := by
  intro t
  cases t with
  | nil => rfl
  | cons a as => simp [infxL, startsL]

theorem infxL_append_right (n h t : List Char) (hs : infxL n h = true) :
    infxL n (h ++ t) = true := by
  induction h with
  | nil =>
    cases n with
    | nil => exact infxL_nil_left t
    | cons a as => exact absurd hs (by simp [infxL, startsL])
  | cons c cs ih =>
    simp only [infxL, Bool.or_eq_true] at hs
    rcases hs with hs | hs
    · simp only [List.cons_append, infxL, Bool.or_eq_true]
      exact Or.inl (startsL_append_right _ _ _ hs)
    · simp only [List.cons_append, infxL, Bool.or_eq_true]
      exact Or.inr (ih hs)

theorem infxL_append_left (n p t : List Char) (hs : infxL n t = true) :
    infxL n (p ++ t) = true := by
  induction p with
  | nil => exact hs
  | cons c cs ih => simp only [List.cons_append, infxL, Bool.or_eq_true]; exact Or.inr ih

/-- A string occurring in `a` occurs in `a ++ b`. -/
theorem strContains_append_right (n a b : String) (hs : strContains n a = true) :
    strContains n (a ++ b) = true := by
  unfold strContains at hs ⊢
  exact infxL_append_right _ _ _ hs

/-- A string occurring in `b` occurs in `a ++ b`. -/
theorem strContains_append_left (n a b : String) (hs : strContains n b = true) :
    strContains n (a ++ b) = true := by
  unfold strContains at hs ⊢
  exact infxL_append_left _ _ _ hs

/-- Every string occurs in itself. -/
theorem strContains_self (a : String) : strContains a a = true := by
  unfold strContains
  exact infxL_self _

/-! ### Claims -/

/-- Claim C9: `exp_decay_weight(0, 3) = 1`, `exp_decay_weight(3, 3) = 1/2`
exactly (the float result is exact up to rounding), and any non-positive
half-life disables decay, returning 1 for every age. -/
theorem C9_exp_decay_weight :
    expDecayWeight 0 3 = 1 ∧ expDecayWeight 3 3 = 1/2 ∧
    ∀ (h a : ℝ), h ≤ 0 → expDecayWeight a h = 1 := by
  refine ⟨?_, ?_, ?_⟩
  · unfold expDecayWeight
    rw [if_neg (by norm_num)]
    norm_num
  · unfold expDecayWeight
    rw [if_neg (by norm_num)]
    rw [show max (0:ℝ) 3 = 3 by norm_num]
    rw [show -(Real.log 2 / 3) * 3 = -Real.log 2 by ring]
    rw [Real.exp_neg, Real.exp_log (by norm_num : (0:ℝ) < 2)]
    norm_num
  · intro h a hh
    unfold expDecayWeight
    rw [if_pos hh]

/-- Witness for C9 at the concrete half-life 0 and age 5. -/
theorem C9_witness : (0:ℝ) ≤ 0 ∧ expDecayWeight 5 0 = 1 :=
  ⟨le_refl 0, C9_exp_decay_weight.2.2 0 5 (le_refl 0)⟩

/-- Claim C8: any series shorter than `window + horizon + 5` makes the
historical-similarity tool return the HOLD/0/0.5 Vote with reason
"insufficient history" and the empty audit payload, with no other path
taken. -/
theorem C8_hist_sim_short_series :
    ∀ (s : List ℝ) (w h tk : ℕ), s.length < w + h + 5 →
      histSimCompute s w h tk = ⟨histSimInsufficientVote, none⟩ ∧
      histSimInsufficientVote.signal = "HOLD" ∧
      histSimInsufficientVote.vote = 0 ∧
      histSimInsufficientVote.confidence = 1/2 ∧
      histSimInsufficientVote.reason = "insufficient history" := by
  intro s w h tk hl
  refine ⟨?_, rfl, rfl, rfl, rfl⟩
  unfold histSimCompute
  rw [if_pos hl]

/-- Witness for C8 at a three-point series with the default parameters. -/
theorem C8_witness :
    ([(1:ℝ), 2, 3].length < 20 + 5 + 5) ∧
    histSimCompute [1, 2, 3] 20 5 10 = ⟨histSimInsufficientVote, none⟩ :=
  ⟨by simp, (C8_hist_sim_short_series [1, 2, 3] 20 5 10 (by simp)).1⟩

/-- Claim C1: the spec says an exactly-zero average loss is treated as
RSI = 100 and a strictly increasing series of more than `period`
observations yields a SELL once the value reaches `overbought`.  The code
instead turns the zero average loss into NaN (`replace(0, nan)`), drops
every RSI value (`dropna`), and returns the insufficient-data HOLD: on the
strictly increasing series `1..16` with `period = 14` the whole RSI series
is dropped and the tool answers HOLD "insufficient data", never SELL. -/
theorem C1_rsi_zero_avg_loss :
    rsiCompute [1, 2, 3, 4, 5, 6, 7, 8, 9, 10, 11, 12, 13, 14, 15, 16] 14 20 80 =
      rsiInsufficientVote ∧
    rsiInsufficientVote.signal = "HOLD" ∧
    rsiInsufficientVote.vote = 0 ∧
    rsiInsufficientVote.reason = "insufficient data" := by
  refine ⟨?_, rfl, rfl, rfl⟩
  norm_num [rsiCompute, rsiFromClose, seriesDiff, diffAux, clipGain, clipLoss, ewmMean, ewmGo,
    replaceZeroWithNan, seriesDiv, rsiInsufficientVote]

/-- Claim C2 counterexample: the five technical indicator calls in
`run_once` are not wrapped, so a technical tool that raises (here the RSI
slot) aborts the whole run with that exception instead of degrading to a
HOLD Vote and returning seven Votes. -/
theorem C2_counterexample :
    runOnce (.error "ZeroDivisionError") (.ok sentDisabledVote) (.ok sentDisabledVote)
        (.ok sentDisabledVote) (.ok sentDisabledVote) (.ok sentDisabledVote)
        (.ok sentDisabledVote) true =
      .error "ZeroDivisionError" := rfl

/-- Claim C2 amended: failure isolation holds only for the fundamental P/E
call and the sentiment call.  When no technical tool raises, the run
returns exactly seven Votes, the first five being the technical Votes; a
raising P/E call is replaced by a HOLD Vote carrying the failure reason,
and a raising enabled sentiment call likewise; a disabled sentiment slot
yields the explicit disabled HOLD Vote. -/
theorem C2_per_tool_isolation_amended :
    ∀ (v1 v2 v3 v4 v5 : Vote ℝ) (peR sentR : Except String (Vote ℝ)) (en : Bool),
      ∃ l, runOnce (.ok v1) (.ok v2) (.ok v3) (.ok v4) (.ok v5) peR sentR en = .ok l ∧
        l.length = 7 ∧
        l.take 5 = [v1, v2, v3, v4, v5] ∧
        (∀ v, peR = .ok v → l.get? 5 = some v) ∧
        (∀ e, peR = .error e → l.get? 5 = some (peFailVote e) ∧
          (peFailVote e).signal = "HOLD" ∧ (peFailVote e).vote = 0 ∧
          (peFailVote e).confidence = 1/2 ∧ strContains e (peFailVote e).reason = true) ∧
        (∀ v, en = true → sentR = .ok v → l.get? 6 = some v) ∧
        (∀ e, en = true → sentR = .error e → l.get? 6 = some (sentFailVote e) ∧
          (sentFailVote e).signal = "HOLD" ∧ (sentFailVote e).vote = 0 ∧
          (sentFailVote e).confidence = 1/2 ∧ strContains e (sentFailVote e).reason = true) ∧
        (en = false → l.get? 6 = some sentDisabledVote) := by
  intro v1 v2 v3 v4 v5 peR sentR en
  have hpe : ∀ e : String, strContains e (peFailVote e).reason = true := by
    intro e
    exact strContains_append_left e "PE lookup failed: " e (strContains_self e)
  have hse : ∀ e : String, strContains e (sentFailVote e).reason = true := by
    intro e
    exact strContains_append_left e "sentiment skipped due to error: " e (strContains_self e)
  cases en <;> cases peR <;> cases sentR <;>
    exact ⟨_, rfl, rfl, rfl,
      by intro v hv; simp_all [runOnce],
      by intro e he; simp_all [runOnce, hpe, peFailVote, one_div],
      by intro v h1 h2; simp_all [runOnce],
      by intro e h1 h2; simp_all [runOnce, hse, sentFailVote, one_div],
      by intro h1; simp_all [runOnce]⟩

/-- Witness for C2 amended: a run where both wrapped tools raise still
returns seven Votes, with the degraded P/E and sentiment Votes in the
last two slots. -/
theorem C2_witness :
    ∃ l, runOnce (.ok sentDisabledVote) (.ok sentDisabledVote) (.ok sentDisabledVote)
        (.ok sentDisabledVote) (.ok sentDisabledVote) (.error "RuntimeError")
        (.error "APIError") true = .ok l ∧
      l.length = 7 ∧
      l.get? 5 = some (peFailVote "RuntimeError") ∧
      l.get? 6 = some (sentFailVote "APIError") := by
  obtain ⟨l, h1, h2, _, _, h5, _, h7, _⟩ :=
    C2_per_tool_isolation_amended sentDisabledVote sentDisabledVote sentDisabledVote
      sentDisabledVote sentDisabledVote (.error "RuntimeError") (.error "APIError") true
  exact ⟨l, h1, h2, (h5 "RuntimeError" rfl).1, (h7 "APIError" rfl rfl).1⟩

/-- Claim C5 counterexample: the empty-batch Vote is HOLD with vote 0 and
confidence exactly 0.5, but its reason is "No recent mentions for AAPL",
which does not contain the substring "no mentions" asserted by the claim. -/
theorem C5_counterexample :
    (sentCompute "AAPL" [] [] 15 3 (1/2) 2 0).v.signal = "HOLD" ∧
    (sentCompute "AAPL" [] [] 15 3 (1/2) 2 0).v.vote = 0 ∧
    (sentCompute "AAPL" [] [] 15 3 (1/2) 2 0).v.confidence = 1/2 ∧
    (sentCompute "AAPL" [] [] 15 3 (1/2) 2 0).v.reason = "No recent mentions for AAPL" ∧
    strContains "no mentions" (sentCompute "AAPL" [] [] 15 3 (1/2) 2 0).v.reason = false := by
  have he : sentCompute "AAPL" [] [] 15 3 (1/2) 2 0 = ⟨noMentionsVote "AAPL", 0, 0, 0, 0, none⟩ := by
    simp [sentCompute]
  rw [he]
  refine ⟨rfl, rfl, rfl, rfl, ?_⟩
  decide

/-- Claim C5 amended: an empty comment batch returns HOLD, vote 0,
confidence exactly 0.5, with the reason "No recent mentions for {ticker}"
(it contains "mentions" but not the exact phrase "no mentions"), and the
output is distinguishable from every non-empty-batch result: the
empty-batch audit payload carries no `w_denom` entry while the computed
branch always carries one. -/
theorem C5_no_mentions_amended :
    ∀ (ticker : String) (results : List SRow) (n : ℕ) (hl mw xw now : ℝ),
      (sentCompute ticker [] results n hl mw xw now).v = noMentionsVote ticker ∧
      (noMentionsVote ticker).signal = "HOLD" ∧
      (noMentionsVote ticker).vote = 0 ∧
      (noMentionsVote ticker).confidence = 1/2 ∧
      (noMentionsVote ticker).reason = "No recent mentions for " ++ ticker ∧
      strContains "mentions" (noMentionsVote ticker).reason = true ∧
      (sentCompute ticker [] results n hl mw xw now).wDenom = none ∧
      (∀ (c : RComment) (cs : List RComment),
        (sentCompute ticker (c :: cs) results n hl mw xw now).wDenom.isSome = true) := by
  intro ticker results n hl mw xw now
  have he : sentCompute ticker [] results n hl mw xw now =
      ⟨noMentionsVote ticker, 0, 0, 0, 0, none⟩ := by
    simp [sentCompute]
  refine ⟨by rw [he], rfl, rfl, rfl, rfl, ?_, by rw [he], ?_⟩
  · exact strContains_append_right "mentions" "No recent mentions for " ticker (by decide)
  · intro c cs
    simp [sentCompute]

theorem stackedAbove_none_right (x y : Option ℚ) : stackedAbove x y none = false := by
  cases x <;> cases y <;> rfl

theorem stackedAbove_none_left (y z : Option ℚ) : stackedAbove none y z = false := by
  cases y <;> cases z <;> rfl

/-- Claim C6: the triple-MA tool returns BUY only when the three latest
SMA values exist and satisfy fast > mid > slow with all three slopes at
least `slope_tol`; a broken stack forces HOLD even when all slopes are
positive (for a non-negative tolerance); and a series shorter than the
slow window always yields HOLD, so BUY is impossible at length 199 with
slow = 200. -/
theorem C6_triple_sma_strict_and :
    (∀ (cs : List ℚ) (w1 w2 w3 sw : ℕ) (tol : ℚ),
      (tripleSMACompute cs w1 w2 w3 sw tol).signal = "BUY" →
      stackedAbove ((smaList cs w1).getLast?) ((smaList cs w2).getLast?)
          ((smaList cs w3).getLast?) = true ∧
      slopesAtLeast tol (slopeOf (smaList cs w1) sw) (slopeOf (smaList cs w2) sw)
          (slopeOf (smaList cs w3) sw) = true) ∧
    (∀ (cs : List ℚ) (w1 w2 w3 sw : ℕ) (tol : ℚ),
      0 ≤ tol →
      stackedAbove ((smaList cs w1).getLast?) ((smaList cs w2).getLast?)
          ((smaList cs w3).getLast?) = false →
      0 < slopeOf (smaList cs w1) sw →
      0 < slopeOf (smaList cs w2) sw →
      0 < slopeOf (smaList cs w3) sw →
      (tripleSMACompute cs w1 w2 w3 sw tol).signal = "HOLD" ∧
      (tripleSMACompute cs w1 w2 w3 sw tol).vote = 0) ∧
    (∀ (cs : List ℚ) (w1 w2 w3 sw : ℕ) (tol : ℚ),
      cs.length < w3 →
      (tripleSMACompute cs w1 w2 w3 sw tol).signal = "HOLD" ∧
      (tripleSMACompute cs w1 w2 w3 sw tol).vote = 0 ∧
      (tripleSMACompute cs w1 w2 w3 sw tol).signal ≠ "BUY") := by
  refine ⟨?_, ?_, ?_⟩
  · intro cs w1 w2 w3 sw tol h
    simp only [tripleSMACompute] at h
    split_ifs at h with h0 h1 h2
    · simp at h
    · simpa [Bool.and_eq_true] using h1
    · simp at h
    · simp at h
  · intro cs w1 w2 w3 sw tol htol hstack hs1 hs2 hs3
    simp only [tripleSMACompute]
    split_ifs with h0 h1 h2
    · exact ⟨rfl, rfl⟩
    · rw [Bool.and_eq_true, hstack] at h1
      exact absurd h1.1 (by simp)
    · rw [Bool.and_eq_true] at h2
      have hb := h2.2
      simp only [slopesBelow, Bool.and_eq_true, decide_eq_true_eq] at hb
      exact absurd hb.1.1 (by linarith)
    · exact ⟨rfl, rfl⟩
  · intro cs w1 w2 w3 sw tol hlen
    have hsl : smaList cs w3 = [] := by
      unfold smaList
      rw [if_neg]
      rintro ⟨-, hb⟩
      omega
    by_cases hcs : cs = []
    · refine ⟨?_, ?_, ?_⟩ <;> simp [tripleSMACompute, hcs]
    · refine ⟨?_, ?_, ?_⟩ <;>
        simp [tripleSMACompute, hcs, hsl, stackedAbove_none_right, stackedAbove_none_left]

/-- Witness for C6: a strictly rising ten-point series triggers BUY with
windows (1,2,3); the series 1,2,3,4,10,5 has a broken stack with all three
slopes positive and yields HOLD; a constant 199-point series with slow
window 200 yields HOLD. -/
theorem C6_witness :
    ((tripleSMACompute [1, 2, 3, 4, 5, 6, 7, 8, 9, 10] 1 2 3 3 0).signal = "BUY" ∧
      stackedAbove ((smaList [1, 2, 3, 4, 5, 6, 7, 8, 9, 10] 1).getLast?)
          ((smaList [1, 2, 3, 4, 5, 6, 7, 8, 9, 10] 2).getLast?)
          ((smaList [1, 2, 3, 4, 5, 6, 7, 8, 9, 10] 3).getLast?) = true ∧
      slopesAtLeast 0 (slopeOf (smaList [1, 2, 3, 4, 5, 6, 7, 8, 9, 10] 1) 3)
          (slopeOf (smaList [1, 2, 3, 4, 5, 6, 7, 8, 9, 10] 2) 3)
          (slopeOf (smaList [1, 2, 3, 4, 5, 6, 7, 8, 9, 10] 3) 3) = true) ∧
    ((0:ℚ) ≤ 0 ∧
      stackedAbove ((smaList [1, 2, 3, 4, 10, 5] 1).getLast?)
          ((smaList [1, 2, 3, 4, 10, 5] 2).getLast?)
          ((smaList [1, 2, 3, 4, 10, 5] 3).getLast?) = false ∧
      0 < slopeOf (smaList [1, 2, 3, 4, 10, 5] 1) 3 ∧
      0 < slopeOf (smaList [1, 2, 3, 4, 10, 5] 2) 3 ∧
      0 < slopeOf (smaList [1, 2, 3, 4, 10, 5] 3) 3 ∧
      (tripleSMACompute [1, 2, 3, 4, 10, 5] 1 2 3 3 0).signal = "HOLD" ∧
      (tripleSMACompute [1, 2, 3, 4, 10, 5] 1 2 3 3 0).vote = 0) ∧
    ((List.replicate 199 (1:ℚ)).length < 200 ∧
      (tripleSMACompute (List.replicate 199 (1:ℚ)) 20 50 200 10 0).signal = "HOLD" ∧
      (tripleSMACompute (List.replicate 199 (1:ℚ)) 20 50 200 10 0).signal ≠ "BUY") := by
  have hBuy : (tripleSMACompute [1, 2, 3, 4, 5, 6, 7, 8, 9, 10] 1 2 3 3 0).signal = "BUY" := by
    norm_num [tripleSMACompute, smaList, qMean, slopeOf, slopeLS, stackedAbove, slopesAtLeast,
      slopesBelow, List.range_succ, List.enum, List.enumFrom, List.cons_ne_nil]
  have hstk : stackedAbove ((smaList [1, 2, 3, 4, 10, 5] 1).getLast?)
      ((smaList [1, 2, 3, 4, 10, 5] 2).getLast?)
      ((smaList [1, 2, 3, 4, 10, 5] 3).getLast?) = false := by
    norm_num [smaList, qMean, stackedAbove, List.range_succ]
  have hs1 : (0:ℚ) < slopeOf (smaList [1, 2, 3, 4, 10, 5] 1) 3 := by
    norm_num [smaList, qMean, slopeOf, slopeLS, List.range_succ, List.enum, List.enumFrom]
  have hs2 : (0:ℚ) < slopeOf (smaList [1, 2, 3, 4, 10, 5] 2) 3 := by
    norm_num [smaList, qMean, slopeOf, slopeLS, List.range_succ, List.enum, List.enumFrom]
  have hs3 : (0:ℚ) < slopeOf (smaList [1, 2, 3, 4, 10, 5] 3) 3 := by
    norm_num [smaList, qMean, slopeOf, slopeLS, List.range_succ, List.enum, List.enumFrom]
  have hlen : (List.replicate 199 (1:ℚ)).length < 200 := by
    rw [List.length_replicate]
    norm_num
  obtain ⟨ha, hb⟩ := C6_triple_sma_strict_and.1 [1, 2, 3, 4, 5, 6, 7, 8, 9, 10] 1 2 3 3 0 hBuy
  obtain ⟨hh1, hh2⟩ :=
    C6_triple_sma_strict_and.2.1 [1, 2, 3, 4, 10, 5] 1 2 3 3 0 (le_refl 0) hstk hs1 hs2 hs3
  obtain ⟨hc1, -, hc3⟩ :=
    C6_triple_sma_strict_and.2.2 (List.replicate 199 (1:ℚ)) 20 50 200 10 0 hlen
  exact ⟨⟨hBuy, ha, hb⟩, ⟨le_refl 0, hstk, hs1, hs2, hs3, hh1, hh2⟩, ⟨hlen, hc1, hc3⟩⟩

theorem bollSd_nonneg (s : List ℝ) (w : ℕ) : 0 ≤ bollSd s w :=
  Real.sqrt_nonneg _

theorem bollLower_le_bollUpper (s : List ℝ) (w : ℕ) (k : ℝ) (hk : 0 ≤ k) :
    bollLower s w k ≤ bollUpper s w k := by
  unfold bollLower bollUpper
  have hs := bollSd_nonneg s w
  nlinarith

/-- Claim C7 counterexample: on the constant series [5, 5] with window 2
the standard deviation is 0, so the price equals the lower band, yet with
`equal_is_inside = False` the upper-band check fires first and the tool
answers SELL with vote -1, not the BUY the claim asserts for a price equal
to the lower band. -/
theorem C7_counterexample :
    rLast [(5:ℝ), 5] = bollLower [(5:ℝ), 5] 2 2 ∧
    (bollCompute [(5:ℝ), 5] 2 2 false).signal = "SELL" ∧
    (bollCompute [(5:ℝ), 5] 2 2 false).vote = -1 := by
  have hu : bollUpper [(5:ℝ), 5] 2 2 = 5 := by
    norm_num [bollUpper, bollMa, bollSd, sampleStd, sampleVar, lastWin, rMean]
  have hl : bollLower [(5:ℝ), 5] 2 2 = 5 := by
    norm_num [bollLower, bollMa, bollSd, sampleStd, sampleVar, lastWin, rMean]
  have hp : rLast [(5:ℝ), 5] = 5 := by simp [rLast]
  refine ⟨by rw [hp, hl], ?_, ?_⟩ <;>
    · simp only [bollCompute]
      rw [if_neg (by norm_num)]
      norm_num [hu, hp]

/-- Claim C7 amended: with a window of at least 2 covered by the series
and a non-negative band multiplier, a price exactly equal to the upper
band yields SELL (vote -1) when `equal_is_inside = False` and HOLD (vote
0) when `True`; a price exactly equal to the lower band yields HOLD when
`True`, and yields BUY (vote 1) when `False` provided the band is
non-degenerate (`k > 0` and a positive standard deviation) — in the
degenerate case the upper-band check fires first and yields SELL, as the
counterexample shows. -/
theorem C7_bollinger_ties_amended :
    ∀ (s : List ℝ) (w : ℕ) (k : ℝ),
      2 ≤ w → w ≤ s.length → 0 ≤ k →
      (rLast s = bollUpper s w k →
        (bollCompute s w k false).signal = "SELL" ∧ (bollCompute s w k false).vote = -1 ∧
        (bollCompute s w k true).signal = "HOLD" ∧ (bollCompute s w k true).vote = 0) ∧
      (rLast s = bollLower s w k → 0 < k → 0 < bollSd s w →
        (bollCompute s w k false).signal = "BUY" ∧ (bollCompute s w k false).vote = 1) ∧
      (rLast s = bollLower s w k →
        (bollCompute s w k true).signal = "HOLD" ∧ (bollCompute s w k true).vote = 0) := by
  intro s w k _h2 hwl hk
  have hle := bollLower_le_bollUpper s w k hk
  refine ⟨?_, ?_, ?_⟩
  · intro heq
    have hcond : bollUpper s w k ≤ rLast s := le_of_eq heq.symm
    have hnlt : ¬ bollUpper s w k < rLast s := by rw [heq]; exact lt_irrefl _
    have hnlow : ¬ rLast s < bollLower s w k := by rw [heq]; exact not_lt.mpr hle
    refine ⟨?_, ?_, ?_, ?_⟩ <;>
      · simp only [bollCompute]
        rw [if_neg (not_lt.mpr hwl)]
        norm_num [hcond, hnlt, hnlow]
  · intro heq hkpos hsd
    have hul : bollLower s w k < bollUpper s w k := by
      unfold bollLower bollUpper
      nlinarith
    have hnup : ¬ bollUpper s w k ≤ rLast s := by rw [heq]; exact not_le.mpr hul
    have hcond : rLast s ≤ bollLower s w k := le_of_eq heq
    refine ⟨?_, ?_⟩ <;>
      · simp only [bollCompute]
        rw [if_neg (not_lt.mpr hwl)]
        norm_num [hnup, hcond]
  · intro heq
    have hnlt : ¬ bollUpper s w k < rLast s := by rw [heq]; exact not_lt.mpr hle
    have hnlow : ¬ rLast s < bollLower s w k := by rw [heq]; exact lt_irrefl _
    refine ⟨?_, ?_⟩ <;>
      · simp only [bollCompute]
        rw [if_neg (not_lt.mpr hwl)]
        norm_num [hnlt, hnlow]

/-- Witness for C7 amended: the degenerate constant series [5, 5] hits the
upper-band clauses (price equals both bands there), and the series
1, 1, -1, 0, -1 with window 5 and k = 1 has mean 0, standard deviation 1
and last price -1 exactly on the lower band, yielding BUY. -/
theorem C7_witness :
    ((2:ℕ) ≤ 2 ∧ (2:ℕ) ≤ [(5:ℝ), 5].length ∧ (0:ℝ) ≤ 2 ∧
      rLast [(5:ℝ), 5] = bollUpper [(5:ℝ), 5] 2 2 ∧
      (bollCompute [(5:ℝ), 5] 2 2 false).signal = "SELL" ∧
      (bollCompute [(5:ℝ), 5] 2 2 true).signal = "HOLD") ∧
    ((2:ℕ) ≤ 5 ∧ (5:ℕ) ≤ [(1:ℝ), 1, -1, 0, -1].length ∧ (0:ℝ) < 1 ∧
      rLast [(1:ℝ), 1, -1, 0, -1] = bollLower [(1:ℝ), 1, -1, 0, -1] 5 1 ∧
      0 < bollSd [(1:ℝ), 1, -1, 0, -1] 5 ∧
      (bollCompute [(1:ℝ), 1, -1, 0, -1] 5 1 false).signal = "BUY" ∧
      (bollCompute [(1:ℝ), 1, -1, 0, -1] 5 1 false).vote = 1 ∧
      (bollCompute [(1:ℝ), 1, -1, 0, -1] 5 1 true).signal = "HOLD") := by
  have hu5 : bollUpper [(5:ℝ), 5] 2 2 = 5 := by
    norm_num [bollUpper, bollMa, bollSd, sampleStd, sampleVar, lastWin, rMean]
  have hp5 : rLast [(5:ℝ), 5] = 5 := by simp [rLast]
  have heq5 : rLast [(5:ℝ), 5] = bollUpper [(5:ℝ), 5] 2 2 := by rw [hp5, hu5]
  have hsd1 : bollSd [(1:ℝ), 1, -1, 0, -1] 5 = 1 := by
    norm_num [bollSd, sampleStd, sampleVar, lastWin, rMean]
  have hl1 : bollLower [(1:ℝ), 1, -1, 0, -1] 5 1 = -1 := by
    norm_num [bollLower, bollMa, hsd1, lastWin, rMean]
  have hp1 : rLast [(1:ℝ), 1, -1, 0, -1] = -1 := by simp [rLast]
  have heq1 : rLast [(1:ℝ), 1, -1, 0, -1] = bollLower [(1:ℝ), 1, -1, 0, -1] 5 1 := by
    rw [hp1, hl1]
  obtain ⟨hu_a, -, hu_c, -⟩ :=
    (C7_bollinger_ties_amended [(5:ℝ), 5] 2 2 (le_refl 2) (by norm_num) (by norm_num)).1 heq5
  obtain ⟨hb_a, hb_b⟩ :=
    (C7_bollinger_ties_amended [(1:ℝ), 1, -1, 0, -1] 5 1 (by norm_num) (by norm_num)
      (by norm_num)).2.1 heq1 (by norm_num) (by rw [hsd1]; norm_num)
  obtain ⟨hh_a, -⟩ :=
    (C7_bollinger_ties_amended [(1:ℝ), 1, -1, 0, -1] 5 1 (by norm_num) (by norm_num)
      (by norm_num)).2.2 heq1
  exact ⟨⟨le_refl 2, by norm_num, by norm_num, heq5, hu_a, hu_c⟩,
    ⟨by norm_num, by norm_num, by norm_num, heq1, by rw [hsd1]; norm_num, hb_a, hb_b, hh_a⟩⟩

instance : IsTotal HSScore hsLe := by
  constructor
  intro a b
  rcases lt_trichotomy a.corr b.corr with hc | hc | hc
  · exact Or.inr (Or.inl hc)
  · rcases le_total a.t b.t with ht | ht
    · exact Or.inl (Or.inr ⟨hc, ht⟩)
    · exact Or.inr (Or.inr ⟨hc.symm, ht⟩)
  · exact Or.inl (Or.inl hc)

instance : IsTrans HSScore hsLe := by
  constructor
  intro a b c hab hbc
  rcases hab with hab | ⟨hab, hab2⟩ <;> rcases hbc with hbc | ⟨hbc, hbc2⟩
  · exact Or.inl (hbc.trans hab)
  · exact Or.inl (hbc ▸ hab)
  · exact Or.inl (hab ▸ hbc)
  · exact Or.inr ⟨hab.trans hbc, hab2.trans hbc2⟩

instance : IsAntisymm HSScore hsStrict := by
  constructor
  intro a b hab hba
  exfalso
  rcases hab with hab | ⟨hab, hab2⟩ <;> rcases hba with hba | ⟨hba, hba2⟩
  · exact absurd (hab.trans hba) (lt_irrefl _)
  · exact absurd (hba ▸ hab) (lt_irrefl _)
  · exact absurd (hab ▸ hba) (lt_irrefl _)
  · exact absurd (hab2.trans hba2) (lt_irrefl _)

/-- The timestamps of the generated score rows are pairwise distinct
(strictly ascending positions `i + w - 1` over `i in range`, for `w >= 1`). -/
theorem hsScores_t_ne (s : List ℝ) (w h : ℕ) (hw : 1 ≤ w) :
    (hsScores s w h).Pairwise (fun a b => a.t ≠ b.t) := by
  unfold hsScores
  rw [List.pairwise_map]
  refine (List.sorted_lt_range _).imp ?_
  intro i j hij
  simp only
  omega

open scoped Classical in
/-- Claim C4: the historical-similarity ranking is a permutation of the
score rows, sorted by the total order (correlation descending, earliest
timestamp first on ties); with a positive window the order is strict on
the ranking, any ranking of the same rows satisfying the strict order is
equal to it, and the Vote payload takes exactly the first `top_k` rows of
this ranking — so two runs on identical input and parameters select identical
top-k matches and produce identical Votes. -/
theorem C4_hist_sim_stable_order :
    ∀ (s : List ℝ) (w h : ℕ),
      (hsSort (hsScores s w h)).Perm (hsScores s w h) ∧
      (hsSort (hsScores s w h)).Pairwise hsLe ∧
      (1 ≤ w → (hsSort (hsScores s w h)).Pairwise hsStrict) ∧
      (1 ≤ w → ∀ l2 : List HSScore, (hsScores s w h).Perm l2 → l2.Pairwise hsStrict →
        l2 = hsSort (hsScores s w h)) ∧
      (∀ tk, ¬ s.length < w + h + 5 → hsScores s w h ≠ [] →
        (histSimCompute s w h tk).data =
          some (rMean (((hsSort (hsScores s w h)).take tk).map HSScore.fwd),
            (hsSort (hsScores s w h)).take tk)) := by
  intro s w h
  have hperm : (hsSort (hsScores s w h)).Perm (hsScores s w h) :=
    List.perm_insertionSort hsLe (hsScores s w h)
  have hsorted : (hsSort (hsScores s w h)).Pairwise hsLe :=
    List.sorted_insertionSort hsLe (hsScores s w h)
  have hstrict : 1 ≤ w → (hsSort (hsScores s w h)).Pairwise hsStrict := by
    intro hw
    have hne : (hsSort (hsScores s w h)).Pairwise (fun a b => a.t ≠ b.t) :=
      (hperm.pairwise_iff (fun hxy => hxy.symm)).mpr (hsScores_t_ne s w h hw)
    refine (hsorted.and hne).imp ?_
    rintro a b ⟨hab | ⟨hc, ht⟩, hne2⟩
    · exact Or.inl hab
    · exact Or.inr ⟨hc, lt_of_le_of_ne ht hne2⟩
  refine ⟨hperm, hsorted, hstrict, ?_, ?_⟩
  · intro hw l2 hp2 hs2
    exact List.eq_of_perm_of_sorted (hp2.symm.trans hperm.symm) hs2 (hstrict hw)
  · intro tk hlen hne
    unfold histSimCompute
    rw [if_neg hlen, if_neg hne]

/-- Witness for C4 on the seven-point series 1..7 with window 1 and
horizon 1 (five comparable windows). -/
theorem C4_witness :
    (1:ℕ) ≤ 1 ∧ ¬ [(1:ℝ), 2, 3, 4, 5, 6, 7].length < 1 + 1 + 5 ∧
    hsScores [(1:ℝ), 2, 3, 4, 5, 6, 7] 1 1 ≠ [] ∧
    (hsSort (hsScores [(1:ℝ), 2, 3, 4, 5, 6, 7] 1 1)).Pairwise hsStrict ∧
    (histSimCompute [(1:ℝ), 2, 3, 4, 5, 6, 7] 1 1 2).data =
      some (rMean (((hsSort (hsScores [(1:ℝ), 2, 3, 4, 5, 6, 7] 1 1)).take 2).map HSScore.fwd),
        (hsSort (hsScores [(1:ℝ), 2, 3, 4, 5, 6, 7] 1 1)).take 2) := by
  have hlen : ¬ [(1:ℝ), 2, 3, 4, 5, 6, 7].length < 1 + 1 + 5 := by simp
  have hne : hsScores [(1:ℝ), 2, 3, 4, 5, 6, 7] 1 1 ≠ [] := by
    have hl : (hsScores [(1:ℝ), 2, 3, 4, 5, 6, 7] 1 1).length = 5 := by
      simp [hsScores]
    intro hcon
    rw [hcon] at hl
    simp at hl
  obtain ⟨-, -, hstrict, -, hdata⟩ := C4_hist_sim_stable_order [(1:ℝ), 2, 3, 4, 5, 6, 7] 1 1
  exact ⟨le_refl 1, hlen, hne, hstrict (le_refl 1), hdata 2 hlen hne⟩

/-! ### Vote invariant helper lemmas -/

theorem voteOK_buy {R : Type} [LinearOrderedField R] (p t rs : String) (cf : R)
    (h0 : 0 ≤ cf) (h1 : cf ≤ 1) : VoteOK (⟨p, t, "BUY", 1, cf, rs⟩ : Vote R) :=
  ⟨Or.inl rfl, h0, h1, iff_of_true rfl rfl,
    iff_of_false (show ¬((1:Int) = -1) by decide) (show ¬(("BUY":String) = "SELL") by decide),
    iff_of_false (show ¬((1:Int) = 0) by decide) (show ¬(("BUY":String) = "HOLD") by decide)⟩

theorem voteOK_sell {R : Type} [LinearOrderedField R] (p t rs : String) (cf : R)
    (h0 : 0 ≤ cf) (h1 : cf ≤ 1) : VoteOK (⟨p, t, "SELL", -1, cf, rs⟩ : Vote R) :=
  ⟨Or.inr (Or.inr rfl), h0, h1,
    iff_of_false (show ¬((-1:Int) = 1) by decide) (show ¬(("SELL":String) = "BUY") by decide),
    iff_of_true rfl rfl,
    iff_of_false (show ¬((-1:Int) = 0) by decide) (show ¬(("SELL":String) = "HOLD") by decide)⟩

theorem voteOK_hold {R : Type} [LinearOrderedField R] (p t rs : String) (cf : R)
    (h0 : 0 ≤ cf) (h1 : cf ≤ 1) : VoteOK (⟨p, t, "HOLD", 0, cf, rs⟩ : Vote R) :=
  ⟨Or.inr (Or.inl rfl), h0, h1,
    iff_of_false (show ¬((0:Int) = 1) by decide) (show ¬(("HOLD":String) = "BUY") by decide),
    iff_of_false (show ¬((0:Int) = -1) by decide) (show ¬(("HOLD":String) = "SELL") by decide),
    iff_of_true rfl rfl⟩

theorem listSum_nonpos (l : List ℝ) (h : ∀ x ∈ l, x ≤ 0) : l.sum ≤ 0 := by
  induction l with
  | nil => simp
  | cons a t ih =>
    simp only [List.sum_cons]
    have h1 := h a (List.mem_cons_self a t)
    have h2 := ih (fun x hx => h x (List.mem_cons_of_mem a hx))
    linarith

/-- The Bollinger confidence `min(0.9, 0.5 + 0.4 * outside_frac)` sits in
`[0.5, 0.9]` because `outside_frac` is non-negative by construction. -/
theorem bollConf_band (x bw : ℝ) :
    1/2 ≤ min (9/10 : ℝ) (1/2 + (2/5) * min 2 (max 0 x / max (1/1000000000) bw)) ∧
    min (9/10 : ℝ) (1/2 + (2/5) * min 2 (max 0 x / max (1/1000000000) bw)) ≤ 9/10 := by
  have hof : (0:ℝ) ≤ min 2 (max 0 x / max (1/1000000000) bw) :=
    le_min (by norm_num)
      (div_nonneg (le_max_left 0 x) ((by norm_num : (0:ℝ) ≤ 1/1000000000).trans
        (le_max_left (1/1000000000) bw)))
  exact ⟨le_min (by norm_num) (by linarith), min_le_left _ _⟩

/-- The P/E confidence formula sits in `[0.5, 0.9]` for every ratio and
threshold pair. -/
theorem peConf_band (p bb hu : ℚ) :
    1/2 ≤ min (9/10 : ℚ) (1/2 + min (2/5) (min |p - bb| |p - hu| / max 1 ((hu - bb) / 2) * (2/5))) ∧
    min (9/10 : ℚ) (1/2 + min (2/5) (min |p - bb| |p - hu| / max 1 ((hu - bb) / 2) * (2/5))) ≤ 9/10 := by
  have hn : (0:ℚ) ≤ min |p - bb| |p - hu| := le_min (abs_nonneg _) (abs_nonneg _)
  have hd : (0:ℚ) ≤ max 1 ((hu - bb) / 2) := (by norm_num : (0:ℚ) ≤ 1).trans (le_max_left _ _)
  have hin : (0:ℚ) ≤ min (2/5) (min |p - bb| |p - hu| / max 1 ((hu - bb) / 2) * (2/5)) :=
    le_min (by norm_num) (mul_nonneg (div_nonneg hn hd) (by norm_num))
  exact ⟨le_min (by norm_num) (by linarith), min_le_left _ _⟩

theorem absSum_le_of_nonneg (cs : List RComment) (f g : RComment → ℝ)
    (hf : ∀ c ∈ cs, |f c| ≤ 1) (hg : ∀ c ∈ cs, 0 ≤ g c) :
    |(cs.map (fun c => f c * g c)).sum| ≤ (cs.map g).sum := by
  induction cs with
  | nil => simp
  | cons a l ih =>
    simp only [List.map_cons, List.sum_cons]
    have h1 := abs_add (f a * g a) ((l.map (fun c => f c * g c)).sum)
    have h2 : |f a * g a| ≤ g a := by
      rw [abs_mul, abs_of_nonneg (hg a (List.mem_cons_self a l))]
      have := mul_le_mul_of_nonneg_right (hf a (List.mem_cons_self a l))
        (hg a (List.mem_cons_self a l))
      simpa using this
    have h3 := ih (fun c hc => hf c (List.mem_cons_of_mem a hc))
      (fun c hc => hg c (List.mem_cons_of_mem a hc))
    calc |f a * g a + (l.map (fun c => f c * g c)).sum|
        ≤ |f a * g a| + |(l.map (fun c => f c * g c)).sum| := h1
      _ ≤ g a + (l.map g).sum := by linarith

theorem absSum_le_of_nonpos (cs : List RComment) (f g : RComment → ℝ)
    (hf : ∀ c ∈ cs, |f c| ≤ 1) (hg : ∀ c ∈ cs, g c ≤ 0) :
    |(cs.map (fun c => f c * g c)).sum| ≤ -((cs.map g).sum) := by
  induction cs with
  | nil => simp
  | cons a l ih =>
    simp only [List.map_cons, List.sum_cons]
    have h1 := abs_add (f a * g a) ((l.map (fun c => f c * g c)).sum)
    have h2 : |f a * g a| ≤ -(g a) := by
      rw [abs_mul, abs_of_nonpos (hg a (List.mem_cons_self a l))]
      have := mul_le_mul_of_nonneg_right (hf a (List.mem_cons_self a l))
        (neg_nonneg.mpr (hg a (List.mem_cons_self a l)))
      simpa using this
    have h3 := ih (fun c hc => hf c (List.mem_cons_of_mem a hc))
      (fun c hc => hg c (List.mem_cons_of_mem a hc))
    calc |f a * g a + (l.map (fun c => f c * g c)).sum|
        ≤ |f a * g a| + |(l.map (fun c => f c * g c)).sum| := h1
      _ ≤ -(g a) + -((l.map g).sum) := by linarith
      _ = -((g a) + (l.map g).sum) := by ring

theorem commentValue_abs_le (rs : List SRow) (c : RComment) :
    |((commentValue rs c : ℤ) : ℝ)| ≤ 1 := by
  unfold commentValue sentimentValue
  split_ifs <;> norm_num

theorem expDecayWeight_nonneg (a h : ℝ) : 0 ≤ expDecayWeight a h := by
  unfold expDecayWeight
  split_ifs
  · norm_num
  · exact (Real.exp_pos _).le

theorem scoreWeight_base_ge_one (score : ℤ) (mw : ℝ) :
    (1:ℝ) ≤ max mw (1 + Real.log (1 + ((max 0 score : ℤ) : ℝ)) / 3) := by
  have hc : (0:ℝ) ≤ ((max 0 score : ℤ) : ℝ) := by
    have : (0:ℤ) ≤ max 0 score := le_max_left 0 score
    exact_mod_cast this
  have hl : 0 ≤ Real.log (1 + ((max 0 score : ℤ) : ℝ)) := Real.log_nonneg (by linarith)
  refine le_trans ?_ (le_max_right _ _)
  linarith

theorem scoreWeight_nonneg (score : ℤ) (mw xw : ℝ) (hxw : 0 ≤ xw) :
    0 ≤ scoreWeight score mw xw := by
  unfold scoreWeight
  exact le_min hxw (le_trans (by norm_num) (scoreWeight_base_ge_one score mw))

theorem scoreWeight_nonpos (score : ℤ) (mw xw : ℝ) (hxw : xw ≤ 0) :
    scoreWeight score mw xw ≤ 0 := by
  unfold scoreWeight
  exact le_trans (min_le_left _ _) hxw

theorem commentWeight_nonneg (now hl mw xw : ℝ) (c : RComment) (hxw : 0 ≤ xw) :
    0 ≤ commentWeight now hl mw xw c :=
  mul_nonneg (expDecayWeight_nonneg _ _) (scoreWeight_nonneg _ _ _ hxw)

theorem commentWeight_nonpos (now hl mw xw : ℝ) (c : RComment) (hxw : xw ≤ 0) :
    commentWeight now hl mw xw c ≤ 0 :=
  mul_nonpos_of_nonneg_of_nonpos (expDecayWeight_nonneg _ _) (scoreWeight_nonpos _ _ _ hxw)

/-- The weighted sentiment sum never exceeds the weight denominator in
absolute value: the per-comment weights all share one sign and the signed
values lie in `[-1, 1]`. -/
theorem sent_absSum_le (rs : List SRow) (now hl mw xw : ℝ) (cs : List RComment) :
    |sentWeightedSum rs now hl mw xw cs| ≤ |sentWDenom now hl mw xw cs| := by
  unfold sentWeightedSum sentWDenom
  rcases le_total 0 xw with hxw | hxw
  · have h := absSum_le_of_nonneg cs (fun c => ((commentValue rs c : ℤ) : ℝ))
      (commentWeight now hl mw xw) (fun c _ => commentValue_abs_le rs c)
      (fun c _ => commentWeight_nonneg now hl mw xw c hxw)
    have hd : 0 ≤ (cs.map (commentWeight now hl mw xw)).sum :=
      List.sum_nonneg (by
        intro x hx
        obtain ⟨c, -, rfl⟩ := List.mem_map.mp hx
        exact commentWeight_nonneg now hl mw xw c hxw)
    rwa [abs_of_nonneg hd]
  · have h := absSum_le_of_nonpos cs (fun c => ((commentValue rs c : ℤ) : ℝ))
      (commentWeight now hl mw xw) (fun c _ => commentValue_abs_le rs c)
      (fun c _ => commentWeight_nonpos now hl mw xw c hxw)
    have hd : (cs.map (commentWeight now hl mw xw)).sum ≤ 0 :=
      listSum_nonpos _ (by
        intro x hx
        obtain ⟨c, -, rfl⟩ := List.mem_map.mp hx
        exact commentWeight_nonpos now hl mw xw c hxw)
    rwa [abs_of_nonpos hd]

theorem sentWDenom_nonneg (now hl mw xw : ℝ) (cs : List RComment) (hxw : 0 ≤ xw) :
    0 ≤ sentWDenom now hl mw xw cs := by
  unfold sentWDenom
  refine List.sum_nonneg ?_
  intro x hx
  obtain ⟨c, -, rfl⟩ := List.mem_map.mp hx
  exact commentWeight_nonneg now hl mw xw c hxw

/-- The sentiment confidence expression is within `[0, 1]` whenever the
weighted sum does not exceed the denominator in absolute value. -/
theorem sentConf_unit (ws wd : ℝ) (hle : |ws| ≤ |wd|) (hne : wd ≠ 0) :
    0 ≤ min (9/10 : ℝ) (1/2 + (2/5) * |ws| / wd) ∧
    min (9/10 : ℝ) (1/2 + (2/5) * |ws| / wd) ≤ 1 := by
  constructor
  · refine le_min (by norm_num) ?_
    rcases lt_or_gt_of_ne hne with hwd | hwd
    · have habs : |ws| ≤ -wd := by
        rw [abs_of_neg hwd] at hle
        exact hle
      have hq : -(2/5 : ℝ) ≤ (2/5) * |ws| / wd := by
        rw [le_div_iff_of_neg hwd]
        nlinarith
      linarith
    · have hq : 0 ≤ (2/5) * |ws| / wd := div_nonneg (by positivity) hwd.le
      linarith
  · exact le_trans (min_le_left _ _) (by norm_num)

/-- The sentiment confidence expression is within `[0.5, 0.9]` for a
positive denominator. -/
theorem sentConf_band (ws wd : ℝ) (hwd : 0 < wd) :
    1/2 ≤ min (9/10 : ℝ) (1/2 + (2/5) * |ws| / wd) ∧
    min (9/10 : ℝ) (1/2 + (2/5) * |ws| / wd) ≤ 9/10 := by
  have hq : 0 ≤ (2/5) * |ws| / wd := div_nonneg (by positivity) hwd.le
  exact ⟨le_min (by norm_num) (by linarith), min_le_left _ _⟩

theorem bollConf_props (vt : Int) (outside u l : ℝ) :
    1/2 ≤ bollConf vt outside u l ∧ bollConf vt outside u l ≤ 9/10 ∧
    (vt = 0 → bollConf vt outside u l = 1/2) := by
  unfold bollConf
  split_ifs with h
  · exact ⟨le_refl _, by norm_num, fun _ => rfl⟩
  · obtain ⟨h1, h2⟩ := bollConf_band outside (u - l)
    exact ⟨h1, h2, fun hc => absurd hc h⟩

theorem peConfSel_props (vt : Int) (cf : ℚ) (h1 : 1/2 ≤ cf) (h2 : cf ≤ 9/10) :
    1/2 ≤ peConfSel vt cf ∧ peConfSel vt cf ≤ 9/10 ∧ (vt = 0 → peConfSel vt cf = 1/2) := by
  unfold peConfSel
  split_ifs with h
  · exact ⟨h1, h2, fun hc => absurd hc h⟩
  · exact ⟨by norm_num, by norm_num, fun _ => rfl⟩

/-- The RSI Vote always satisfies the Vote contract, its confidence sits
in `[0.5, 0.9]`, and a HOLD carries exactly 0.5. -/
theorem rsi_vote_props (close : List ℚ) (p : ℕ) (os ob : ℚ) :
    VoteOK (rsiCompute close p os ob) ∧ ConfBand (rsiCompute close p os ob) ∧
    ((rsiCompute close p os ob).vote = 0 → (rsiCompute close p os ob).confidence = 1/2) := by
  simp only [rsiCompute]
  cases hv : ((rsiFromClose close p).filterMap id).getLast? with
  | none =>
    exact ⟨voteOK_hold _ _ _ _ (by norm_num) (by norm_num),
      ⟨by norm_num [rsiInsufficientVote], by norm_num [rsiInsufficientVote]⟩, fun _ => rfl⟩
  | some val =>
    dsimp only
    split_ifs with h1 h2
    · exact ⟨voteOK_buy _ _ _ _ (by norm_num) (by norm_num), ⟨by norm_num, by norm_num⟩,
        fun h => absurd h (by decide)⟩
    · exact ⟨voteOK_sell _ _ _ _ (by norm_num) (by norm_num), ⟨by norm_num, by norm_num⟩,
        fun h => absurd h (by decide)⟩
    · exact ⟨voteOK_hold _ _ _ _ (by norm_num) (by norm_num), ⟨by norm_num, by norm_num⟩,
        fun _ => rfl⟩

/-- The triple-MA Vote always satisfies the Vote contract, its confidence
sits in `[0.5, 0.9]`, and a HOLD carries exactly 0.5. -/
theorem tripleSMA_vote_props (cs : List ℚ) (w1 w2 w3 sw : ℕ) (tol : ℚ) :
    VoteOK (tripleSMACompute cs w1 w2 w3 sw tol) ∧
    ConfBand (tripleSMACompute cs w1 w2 w3 sw tol) ∧
    ((tripleSMACompute cs w1 w2 w3 sw tol).vote = 0 →
      (tripleSMACompute cs w1 w2 w3 sw tol).confidence = 1/2) := by
  simp only [tripleSMACompute]
  split_ifs with h0 h1 h2
  · exact ⟨voteOK_hold _ _ _ _ (by norm_num) (by norm_num), ⟨by norm_num, by norm_num⟩,
      fun _ => rfl⟩
  · exact ⟨voteOK_buy _ _ _ _ (by norm_num) (by norm_num), ⟨by norm_num, by norm_num⟩,
      fun h => absurd h (by decide)⟩
  · exact ⟨voteOK_sell _ _ _ _ (by norm_num) (by norm_num), ⟨by norm_num, by norm_num⟩,
      fun h => absurd h (by decide)⟩
  · exact ⟨voteOK_hold _ _ _ _ (by norm_num) (by norm_num), ⟨by norm_num, by norm_num⟩,
      fun _ => rfl⟩

/-- The price/volume Vote always satisfies the Vote contract, its
confidence sits in `[0.5, 0.9]`, and a HOLD carries exactly 0.5. -/
theorem pv_vote_props (c v : List ℚ) (w : ℕ) (vr : ℚ) :
    VoteOK (pvCompute c v w vr) ∧ ConfBand (pvCompute c v w vr) ∧
    ((pvCompute c v w vr).vote = 0 → (pvCompute c v w vr).confidence = 1/2) := by
  simp only [pvCompute]
  split_ifs <;>
    first
      | exact ⟨voteOK_hold _ _ _ _ (by norm_num) (by norm_num), ⟨by norm_num, by norm_num⟩,
          fun _ => rfl⟩
      | exact ⟨voteOK_buy _ _ _ _ (by norm_num) (by norm_num), ⟨by norm_num, by norm_num⟩,
          fun h => absurd h (by decide)⟩
      | exact ⟨voteOK_sell _ _ _ _ (by norm_num) (by norm_num), ⟨by norm_num, by norm_num⟩,
          fun h => absurd h (by decide)⟩

/-- The Bollinger Vote always satisfies the Vote contract, its confidence
sits in `[0.5, 0.9]`, and a HOLD carries exactly 0.5. -/
theorem boll_vote_props (s : List ℝ) (w : ℕ) (k : ℝ) (eqi : Bool) :
    VoteOK (bollCompute s w k eqi) ∧ ConfBand (bollCompute s w k eqi) ∧
    ((bollCompute s w k eqi).vote = 0 → (bollCompute s w k eqi).confidence = 1/2) := by
  simp only [bollCompute]
  split_ifs with h0 h1 h2 h3 h4 h5
  · exact ⟨voteOK_hold _ _ _ _ (by norm_num) (by norm_num),
      ⟨by norm_num [bollInsufficientVote], by norm_num [bollInsufficientVote]⟩, fun _ => rfl⟩
  · dsimp only
    obtain ⟨hb1, hb2, -⟩ := bollConf_props (-1) (rLast s - bollUpper s w k)
      (bollUpper s w k) (bollLower s w k)
    exact ⟨voteOK_sell _ _ _ _ (by linarith) (by linarith), ⟨hb1, hb2⟩,
      fun h => absurd h (by decide)⟩
  · dsimp only
    obtain ⟨hb1, hb2, -⟩ := bollConf_props 1 (bollLower s w k - rLast s)
      (bollUpper s w k) (bollLower s w k)
    exact ⟨voteOK_buy _ _ _ _ (by linarith) (by linarith), ⟨hb1, hb2⟩,
      fun h => absurd h (by decide)⟩
  · dsimp only
    obtain ⟨hb1, hb2, hb3⟩ := bollConf_props 0 0 (bollUpper s w k) (bollLower s w k)
    exact ⟨voteOK_hold _ _ _ _ (by linarith) (by linarith), ⟨hb1, hb2⟩, fun _ => hb3 rfl⟩
  · dsimp only
    obtain ⟨hb1, hb2, -⟩ := bollConf_props (-1) (max 0 (rLast s - bollUpper s w k))
      (bollUpper s w k) (bollLower s w k)
    exact ⟨voteOK_sell _ _ _ _ (by linarith) (by linarith), ⟨hb1, hb2⟩,
      fun h => absurd h (by decide)⟩
  · dsimp only
    obtain ⟨hb1, hb2, -⟩ := bollConf_props 1 (max 0 (bollLower s w k - rLast s))
      (bollUpper s w k) (bollLower s w k)
    exact ⟨voteOK_buy _ _ _ _ (by linarith) (by linarith), ⟨hb1, hb2⟩,
      fun h => absurd h (by decide)⟩
  · dsimp only
    obtain ⟨hb1, hb2, hb3⟩ := bollConf_props 0 0 (bollUpper s w k) (bollLower s w k)
    exact ⟨voteOK_hold _ _ _ _ (by linarith) (by linarith), ⟨hb1, hb2⟩, fun _ => hb3 rfl⟩

/-- The historical-similarity Vote always satisfies the Vote contract, its
confidence sits in `[0.5, 0.9]`, and a HOLD carries exactly 0.5. -/
theorem histSim_vote_props (s : List ℝ) (w h tk : ℕ) :
    VoteOK (histSimCompute s w h tk).v ∧ ConfBand (histSimCompute s w h tk).v ∧
    ((histSimCompute s w h tk).v.vote = 0 → (histSimCompute s w h tk).v.confidence = 1/2) := by
  simp only [histSimCompute]
  split_ifs with h0 h1 h2 h3
  · exact ⟨voteOK_hold _ _ _ _ (by norm_num) (by norm_num),
      ⟨by norm_num [histSimInsufficientVote], by norm_num [histSimInsufficientVote]⟩,
      fun _ => rfl⟩
  · exact ⟨voteOK_hold _ _ _ _ (by norm_num) (by norm_num), ⟨by norm_num, by norm_num⟩,
      fun _ => rfl⟩
  · dsimp only
    exact ⟨voteOK_buy _ _ _ _ (by norm_num) (by norm_num), ⟨by norm_num, by norm_num⟩,
      fun hc => absurd hc (show ¬((1:Int) = 0) by decide)⟩
  · dsimp only
    exact ⟨voteOK_sell _ _ _ _ (by norm_num) (by norm_num), ⟨by norm_num, by norm_num⟩,
      fun hc => absurd hc (show ¬((-1:Int) = 0) by decide)⟩
  · dsimp only
    exact ⟨voteOK_hold _ _ _ _ (by norm_num) (by norm_num), ⟨by norm_num, by norm_num⟩,
      fun _ => rfl⟩

/-- The P/E Vote always satisfies the Vote contract, its confidence sits
in `[0.5, 0.9]`, and a HOLD carries exactly 0.5. -/
theorem pe_vote_props (pe : Option ℚ) (bb hu : ℚ) :
    VoteOK (peCompute pe bb hu) ∧ ConfBand (peCompute pe bb hu) ∧
    ((peCompute pe bb hu).vote = 0 → (peCompute pe bb hu).confidence = 1/2) := by
  cases pe with
  | none =>
    exact ⟨voteOK_hold _ _ _ _ (by norm_num) (by norm_num),
      ⟨by norm_num [peCompute, peUnavailableVote], by norm_num [peCompute, peUnavailableVote]⟩,
      fun _ => rfl⟩
  | some p =>
    simp only [peCompute]
    obtain ⟨hc1, hc2⟩ := peConf_band p bb hu
    split_ifs with h1 h2
    · dsimp only
      obtain ⟨hp1, hp2, -⟩ := peConfSel_props 1 _ hc1 hc2
      exact ⟨voteOK_buy _ _ _ _ (by linarith) (by linarith), ⟨hp1, hp2⟩,
        fun h => absurd h (show ¬((1:Int) = 0) by decide)⟩
    · dsimp only
      obtain ⟨hp1, hp2, -⟩ := peConfSel_props (-1) _ hc1 hc2
      exact ⟨voteOK_sell _ _ _ _ (by linarith) (by linarith), ⟨hp1, hp2⟩,
        fun h => absurd h (show ¬((-1:Int) = 0) by decide)⟩
    · dsimp only
      obtain ⟨hp1, hp2, hp3⟩ := peConfSel_props 0 _ hc1 hc2
      exact ⟨voteOK_hold _ _ _ _ (by linarith) (by linarith), ⟨hp1, hp2⟩,
        fun _ => hp3 rfl⟩

/-- The sentiment Vote always satisfies the Vote contract (for every
parameter set, including nonsensical negative weight clamps), and its
confidence sits in `[0.5, 0.9]` whenever the upper score-weight clamp is
non-negative (as every sensible configuration has). -/
theorem sent_vote_props (t : String) (cs : List RComment) (rs : List SRow) (n : ℕ)
    (hl mw xw now : ℝ) :
    VoteOK (sentCompute t cs rs n hl mw xw now).v ∧
    (0 ≤ xw → ConfBand (sentCompute t cs rs n hl mw xw now).v) := by
  by_cases hcs : cs = []
  · subst hcs
    have he : sentCompute t [] rs n hl mw xw now = ⟨noMentionsVote t, 0, 0, 0, 0, none⟩ := by
      simp [sentCompute]
    rw [he]
    exact ⟨voteOK_hold _ _ _ _ (by norm_num) (by norm_num),
      fun _ => ⟨by norm_num [noMentionsVote], by norm_num [noMentionsVote]⟩⟩
  · have hle := sent_absSum_le rs now hl mw xw (cs.take n)
    simp only [sentCompute]
    rw [if_neg hcs]
    split_ifs with h1 h2 h3 h4 h5
    · exact ⟨voteOK_hold _ _ _ _ (by norm_num) (by norm_num),
        fun _ => ⟨by norm_num, by norm_num⟩⟩
    · obtain ⟨hu1, hu2⟩ := sentConf_unit _ _ hle h2
      refine ⟨voteOK_hold _ _ _ _ hu1 hu2, fun hxw => ?_⟩
      have hwd0 : 0 ≤ sentWDenom now hl mw xw (cs.take n) := sentWDenom_nonneg now hl mw xw _ hxw
      obtain ⟨hb1, hb2⟩ := sentConf_band
        (sentWeightedSum rs now hl mw xw (cs.take n)) _ (lt_of_le_of_ne hwd0 (Ne.symm h2))
      exact ⟨hb1, hb2⟩
    · exact absurd (Or.inr h4) h1
    · obtain ⟨hu1, hu2⟩ := sentConf_unit _ _ hle h4
      refine ⟨voteOK_buy _ _ _ _ hu1 hu2, fun hxw => ?_⟩
      have hwd0 : 0 ≤ sentWDenom now hl mw xw (cs.take n) := sentWDenom_nonneg now hl mw xw _ hxw
      obtain ⟨hb1, hb2⟩ := sentConf_band
        (sentWeightedSum rs now hl mw xw (cs.take n)) _ (lt_of_le_of_ne hwd0 (Ne.symm h4))
      exact ⟨hb1, hb2⟩
    · exact absurd (Or.inr h5) h1
    · obtain ⟨hu1, hu2⟩ := sentConf_unit _ _ hle h5
      refine ⟨voteOK_sell _ _ _ _ hu1 hu2, fun hxw => ?_⟩
      have hwd0 : 0 ≤ sentWDenom now hl mw xw (cs.take n) := sentWDenom_nonneg now hl mw xw _ hxw
      obtain ⟨hb1, hb2⟩ := sentConf_band
        (sentWeightedSum rs now hl mw xw (cs.take n)) _ (lt_of_le_of_ne hwd0 (Ne.symm h5))
      exact ⟨hb1, hb2⟩

/-- Claim C3: every Vote produced by any of the seven tools, on any input
and parameter set, has vote in `{-1,0,1}`, confidence in `[0,1]`, and sign
consistency between vote and signal. -/
theorem C3_vote_contract_invariant :
    (∀ (close : List ℚ) (p : ℕ) (os ob : ℚ), VoteOK (rsiCompute close p os ob)) ∧
    (∀ (cs : List ℚ) (w1 w2 w3 sw : ℕ) (tol : ℚ), VoteOK (tripleSMACompute cs w1 w2 w3 sw tol)) ∧
    (∀ (s : List ℝ) (w : ℕ) (k : ℝ) (eqi : Bool), VoteOK (bollCompute s w k eqi)) ∧
    (∀ (c v : List ℚ) (w : ℕ) (vr : ℚ), VoteOK (pvCompute c v w vr)) ∧
    (∀ (s : List ℝ) (w h tk : ℕ), VoteOK (histSimCompute s w h tk).v) ∧
    (∀ (pe : Option ℚ) (bb hu : ℚ), VoteOK (peCompute pe bb hu)) ∧
    (∀ (t : String) (cs : List RComment) (rs : List SRow) (n : ℕ) (hl mw xw now : ℝ),
      VoteOK (sentCompute t cs rs n hl mw xw now).v) :=
  ⟨fun close p os ob => (rsi_vote_props close p os ob).1,
    fun cs w1 w2 w3 sw tol => (tripleSMA_vote_props cs w1 w2 w3 sw tol).1,
    fun s w k eqi => (boll_vote_props s w k eqi).1,
    fun c v w vr => (pv_vote_props c v w vr).1,
    fun s w h tk => (histSim_vote_props s w h tk).1,
    fun pe bb hu => (pe_vote_props pe bb hu).1,
    fun t cs rs n hl mw xw now => (sent_vote_props t cs rs n hl mw xw now).1⟩

/-- Claim C10 counterexample: a computed-neutral sentiment HOLD does not
carry confidence 0.5.  One Bullish comment with score 0 and a tiny upper
score-weight clamp (1e-10, with decay disabled via half-life 0) gives a
weighted sum of 1e-10, below the 1e-9 epsilon, so the signal is HOLD with
vote 0 — yet the confidence is `min(0.9, 0.5 + 0.4 * |ws| / wd)` with
`|ws| = wd`, which evaluates to 0.9, not 0.5. -/
theorem C10_counterexample :
    (sentCompute "X" [⟨"c1", 0, 0⟩] [⟨"c1", "Bullish", 4/5⟩]
        15 0 (1/2) (1/10000000000) 0).v.signal = "HOLD" ∧
    (sentCompute "X" [⟨"c1", 0, 0⟩] [⟨"c1", "Bullish", 4/5⟩]
        15 0 (1/2) (1/10000000000) 0).v.vote = 0 ∧
    (sentCompute "X" [⟨"c1", 0, 0⟩] [⟨"c1", "Bullish", 4/5⟩]
        15 0 (1/2) (1/10000000000) 0).v.confidence = 9/10 := by
  have hcw : commentWeight 0 0 (1/2) (1/10000000000) ⟨"c1", 0, 0⟩ = 1/10000000000 := by
    unfold commentWeight expDecayWeight ageDays scoreWeight
    rw [if_pos (le_refl (0:ℝ))]
    norm_num [Real.log_one, min_def, max_def]
  have hcv : commentValue [⟨"c1", "Bullish", 4/5⟩] ⟨"c1", 0, 0⟩ = 1 := by
    simp [commentValue, lookupRow, sentimentValue, List.find?]
  have hws : sentWeightedSum [⟨"c1", "Bullish", 4/5⟩] 0 0 (1/2) (1/10000000000)
      [⟨"c1", 0, 0⟩] = 1/10000000000 := by
    unfold sentWeightedSum
    simp only [List.map_cons, List.map_nil, List.sum_cons, List.sum_nil]
    rw [hcv, hcw]
    norm_num
  have hwd : sentWDenom 0 0 (1/2) (1/10000000000) [⟨"c1", 0, 0⟩] = 1/10000000000 := by
    unfold sentWDenom
    simp only [List.map_cons, List.map_nil, List.sum_cons, List.sum_nil]
    rw [hcw]
    norm_num
  have habs : |(1/10000000000 : ℝ)| < 1/1000000000 ∨ (1/10000000000 : ℝ) = 0 :=
    Or.inl (by
      rw [abs_of_pos (by norm_num : (0:ℝ) < 1/10000000000)]
      norm_num)
  refine ⟨?_, ?_, ?_⟩
  · simp only [sentCompute]
    rw [if_neg (by simp : ¬([(⟨"c1", 0, 0⟩ : RComment)] = []))]
    rw [show List.take 15 [(⟨"c1", 0, 0⟩ : RComment)] = [⟨"c1", 0, 0⟩] from by simp]
    rw [hws, hwd, if_pos habs]
  · simp only [sentCompute]
    rw [if_neg (by simp : ¬([(⟨"c1", 0, 0⟩ : RComment)] = []))]
    rw [show List.take 15 [(⟨"c1", 0, 0⟩ : RComment)] = [⟨"c1", 0, 0⟩] from by simp]
    rw [hws, hwd, if_pos habs]
  · simp only [sentCompute]
    rw [if_neg (by simp : ¬([(⟨"c1", 0, 0⟩ : RComment)] = []))]
    rw [show List.take 15 [(⟨"c1", 0, 0⟩ : RComment)] = [⟨"c1", 0, 0⟩] from by simp]
    rw [hws, hwd, if_pos habs, if_neg (by norm_num : ¬((1/10000000000:ℝ) = 0))]
    rw [abs_of_pos (by norm_num : (0:ℝ) < 1/10000000000)]
    norm_num [min_self]

/-- Claim C10 amended: every Vote emitted by any of the seven tools has
confidence in `[0.5, 0.9]` (for the sentiment aggregator under a
non-negative upper score-weight clamp, as in every sensible
configuration), and every HOLD or degraded Vote of the six non-sentiment
tools carries exactly 0.5 — but a sentiment computed-neutral HOLD
(`0 < |weighted_sum| < 1e-9`) carries the same scaled confidence as a
decision, which can reach 0.9, as the counterexample shows. -/
theorem C10_confidence_band_amended :
    (∀ (close : List ℚ) (p : ℕ) (os ob : ℚ), ConfBand (rsiCompute close p os ob) ∧
      ((rsiCompute close p os ob).vote = 0 → (rsiCompute close p os ob).confidence = 1/2)) ∧
    (∀ (cs : List ℚ) (w1 w2 w3 sw : ℕ) (tol : ℚ),
      ConfBand (tripleSMACompute cs w1 w2 w3 sw tol) ∧
      ((tripleSMACompute cs w1 w2 w3 sw tol).vote = 0 →
        (tripleSMACompute cs w1 w2 w3 sw tol).confidence = 1/2)) ∧
    (∀ (s : List ℝ) (w : ℕ) (k : ℝ) (eqi : Bool), ConfBand (bollCompute s w k eqi) ∧
      ((bollCompute s w k eqi).vote = 0 → (bollCompute s w k eqi).confidence = 1/2)) ∧
    (∀ (c v : List ℚ) (w : ℕ) (vr : ℚ), ConfBand (pvCompute c v w vr) ∧
      ((pvCompute c v w vr).vote = 0 → (pvCompute c v w vr).confidence = 1/2)) ∧
    (∀ (s : List ℝ) (w h tk : ℕ), ConfBand (histSimCompute s w h tk).v ∧
      ((histSimCompute s w h tk).v.vote = 0 → (histSimCompute s w h tk).v.confidence = 1/2)) ∧
    (∀ (pe : Option ℚ) (bb hu : ℚ), ConfBand (peCompute pe bb hu) ∧
      ((peCompute pe bb hu).vote = 0 → (peCompute pe bb hu).confidence = 1/2)) ∧
    (∀ (t : String) (cs : List RComment) (rs : List SRow) (n : ℕ) (hl mw xw now : ℝ),
      0 ≤ xw → ConfBand (sentCompute t cs rs n hl mw xw now).v) :=
  ⟨fun close p os ob => ⟨(rsi_vote_props close p os ob).2.1, (rsi_vote_props close p os ob).2.2⟩,
    fun cs w1 w2 w3 sw tol => ⟨(tripleSMA_vote_props cs w1 w2 w3 sw tol).2.1,
      (tripleSMA_vote_props cs w1 w2 w3 sw tol).2.2⟩,
    fun s w k eqi => ⟨(boll_vote_props s w k eqi).2.1, (boll_vote_props s w k eqi).2.2⟩,
    fun c v w vr => ⟨(pv_vote_props c v w vr).2.1, (pv_vote_props c v w vr).2.2⟩,
    fun s w h tk => ⟨(histSim_vote_props s w h tk).2.1, (histSim_vote_props s w h tk).2.2⟩,
    fun pe bb hu => ⟨(pe_vote_props pe bb hu).2.1, (pe_vote_props pe bb hu).2.2⟩,
    fun t cs rs n hl mw xw now => (sent_vote_props t cs rs n hl mw xw now).2⟩

/-- Witness for C10 amended: the degraded RSI Vote of an empty series is
HOLD and carries exactly 0.5, and the empty-batch sentiment Vote with the
default clamps (0.5, 2.0) lies in the band. -/
theorem C10_witness :
    ((rsiCompute [] 14 20 80).vote = 0 ∧ (rsiCompute [] 14 20 80).confidence = 1/2) ∧
    ((0:ℝ) ≤ 2 ∧ ConfBand (sentCompute "X" [] [] 15 3 (1/2) 2 0).v) := by
  have hv : (rsiCompute [] 14 20 80).vote = 0 := by
    norm_num [rsiCompute, rsiFromClose, seriesDiff, clipGain, clipLoss, ewmMean, ewmGo,
      replaceZeroWithNan, seriesDiv, rsiInsufficientVote]
  exact ⟨⟨hv, (C10_confidence_band_amended.1 [] 14 20 80).2 hv⟩,
    ⟨by norm_num,
      C10_confidence_band_amended.2.2.2.2.2.2 "X" [] [] 15 3 (1/2) 2 0 (by norm_num)⟩⟩

end TradingBot
